import Mathlib

/-
Verification of the match-settlement pipeline of the impostor-stats repository.

The repository contains two variants of the match-ingestion endpoint:
the file `src/app/api/match/route.ts` (called "variant A" below) and an
unnamed second copy of `app/api/match/route.ts` found in the repository
sources (called "variant B" below), plus display-side placement
recomputation in the client pages.

Numbers are modelled as rationals (JavaScript `number` arithmetic on the
values reached by these functions is exact on the inputs the theorems
quantify over, apart from binary non-representability of the literals
0.2/0.4/0.6, which we embed exactly as 1/5, 2/5, 3/5).  `Math.round` is
embedded as `fun q => ⌊q + 1/2⌋`, which is its exact JavaScript semantics
(half-up, toward +infinity).  JavaScript `Record`s keyed by discord id are
embedded as association lists in insertion order; `Map` likewise.
Timestamps are rationals (milliseconds since epoch).
-/

/-- JavaScript `Math.round`: nearest integer, halves toward plus infinity. -/
def jsRound (q : ℚ) : ℤ := ⌊q + 1 / 2⌋

/-- Source constant `ELO_FLOOR` (both variants). -/
def ELO_FLOOR : ℚ := 300

/-- Source constant `PLACEMENT_GAMES` (both variants). -/
def PLACEMENT_GAMES : ℚ := 6

/-- Source constant `PLACEMENT_MULT` (both variants). -/
def PLACEMENT_MULT : ℚ := 3

/-- Source constant `CASUAL_REQUIRED_FOR_RANKED` (both variants). -/
def CASUAL_REQUIRED_FOR_RANKED : ℚ := 5

/-- Source `clampPct` (identical in both variants): maps the absolute lobby
rating difference to the damping fraction. -/
def clampPct (absDiff : ℚ) : ℚ :=
  if 300 ≤ absDiff then 3 / 5
  else if 200 ≤ absDiff then 2 / 5
  else if 100 ≤ absDiff then 1 / 5
  else 0

/-- Source `applyLobbyMultiplierFloat` (identical in both variants). -/
def applyLobbyMultiplierFloat (baseDelta playerElo avgOthers : ℚ) : ℚ :=
  if baseDelta = 0 then 0
  else
    let diff := playerElo - avgOthers
    let pct := clampPct |diff|
    if pct = 0 then baseDelta
    else if 0 < diff then
      (if 0 < baseDelta then baseDelta * (1 - pct) else baseDelta * (1 + pct))
    else if diff < 0 then
      (if 0 < baseDelta then baseDelta * (1 + pct) else baseDelta * (1 - pct))
    else baseDelta

/-- Source local `baseByPlace` inside `computeBaseDeltasByTiesFloat`. -/
def baseByPlace : List ℚ := [30, 10, -10, -30]

/-- The index-walking loop of `computeBaseDeltasByTiesFloat`: `i` is the
0-based rank position of the head of the remaining (points-descending)
list; each maximal run of equal points receives the mean of the base
deltas of the positions the run occupies (`baseByPlace[k] ?? 0`). -/
def tiesRun : ℕ → List (String × ℚ) → ℕ → List (String × ℚ)
  | _, [], _ => []
  | 0, _ :: _, _ => []
  | fuel + 1, x :: rest, i =>
    let run := rest.takeWhile (fun y => decide (y.2 = x.2))
    let len := run.length + 1
    let avg := (((List.range len).map (fun k => baseByPlace.getD (i + k) 0)).sum) / len
    ((x :: run).map (fun y => (y.1, avg))) ++
      tiesRun fuel (rest.dropWhile (fun y => decide (y.2 = x.2))) (i + len)

/-- Source `computeBaseDeltasByTiesFloat` (identical in both variants),
on a points-descending list of (discord_id, points).  The walk is given the
list length as recursion fuel, which it can never exhaust (every step
consumes at least one list element). -/
def computeBaseDeltasByTiesFloat (sortedByPoints : List (String × ℚ)) : List (String × ℚ) :=
  tiesRun sortedByPoints.length sortedByPoints 0

/-- Sum of the values of a rational-valued record. -/
def sumValuesQ (l : List (String × ℚ)) : ℚ := (l.map Prod.snd).sum

/-- Sum of the values of an integer-valued record. -/
def sumValuesZ (l : List (String × ℤ)) : ℤ := (l.map Prod.snd).sum

/-- JavaScript `rounded[pick] += s` on a record embedded as an association
list: adds `s` to the value at the first occurrence of key `k`. -/
def setAddInt : List (String × ℤ) → String → ℤ → List (String × ℤ)
  | [], _, _ => []
  | e :: rest, k, s => if e.1 = k then (e.1, e.2 + s) :: rest else e :: setAddInt rest k s

/-- The residual-redistribution `while` loop of `normalizeZeroSumAndRound`:
while the residual is nonzero and fewer than `3 * order.length` iterations
have run, add one unit (with the residual's sign) to the entry named by the
sorted fraction list, cycling through it. -/
def redistLoop (order : List (String × ℚ)) : ℕ → List (String × ℤ) → ℤ → ℕ → List (String × ℤ)
  | 0, rounded, _, _ => rounded
  | fuel + 1, rounded, residual, i =>
    if residual ≠ 0 ∧ i < order.length * 3 then
      let pick := (order.getD (i % order.length) ("", 0)).1
      let step : ℤ := if 0 < residual then 1 else -1
      redistLoop order fuel (setAddInt rounded pick step) (residual - step) (i + 1)
    else rounded

/-- Source `normalizeZeroSumAndRound` (identical in both variants):
mean-center the float deltas, round each, then redistribute the leftover
residual one unit at a time over the entries sorted by fractional
remainder (descending if the residual is positive, else ascending).  The
source's `while (residual !== 0 && i < frac.length * 3)` loop is given
`3 * length` fuel, exactly its iteration bound; JavaScript's stable
comparator sort is modelled by the stable insertion sort. -/
def normalizeZeroSumAndRound (deltasFloat : List (String × ℚ)) : List (String × ℤ) :=
  let n : ℚ := deltasFloat.length
  let mean := sumValuesQ deltasFloat / n
  let zeroFloats := deltasFloat.map (fun e => (e.1, e.2 - mean))
  let rounded := zeroFloats.map (fun e => (e.1, jsRound e.2))
  let frac := zeroFloats.map (fun e => (e.1, e.2 - (jsRound e.2 : ℚ)))
  let residual := -sumValuesZ rounded
  if residual ≠ 0 then
    let fracSorted :=
      frac.insertionSort (fun a b => if 0 < residual then b.2 ≤ a.2 else a.2 ≤ b.2)
    redistLoop fracSorted (fracSorted.length * 3) rounded residual 0
  else rounded

/-- The stable points-descending sort `sort((a, b) => b.points - a.points)`
used on `Object.entries(points)` in both variants. -/
def sortByPointsDesc (l : List (String × ℚ)) : List (String × ℚ) :=
  l.insertionSort (fun a b => b.2 ≤ a.2)

/-- The per-participant scaled float deltas (step 1 of the ranked Elo
computation in both variants): base delta by tie-averaged place, then the
lobby multiplier against the mean rating of the other three participants,
then the placement-phase multiplier for that participant alone. -/
def computeScaled (ids : List String) (sorted : List (String × ℚ))
    (eloBefore : String → ℚ) (isPlacement : String → Bool) : List (String × ℚ) :=
  let baseDeltaMap := computeBaseDeltasByTiesFloat sorted
  sorted.map (fun s =>
    let id := s.1
    let d0 := (baseDeltaMap.lookup id).getD 0
    let others := ids.filter (fun x => decide (x ≠ id))
    let avgOthers :=
      (eloBefore (others.getD 0 "") + eloBefore (others.getD 1 "") + eloBefore (others.getD 2 "")) / 3
    let d1 := applyLobbyMultiplierFloat d0 (eloBefore id) avgOthers
    (id, if isPlacement id then d1 * PLACEMENT_MULT else d1))

/-- The final integer deltas (step 2 of the ranked Elo computation in both
variants): if any participant is in placement phase, every scaled delta is
rounded independently (`Math.round(scaled[id] ?? 0)` over the ids); else
the zero-sum normalization runs.  `rankedPlayed id` models the value
`Number(byId[id]?.ranked_games_played ?? 0)` read for that participant. -/
def rankedFinalDeltas (ids : List String) (sorted : List (String × ℚ))
    (eloBefore : String → ℚ) (rankedPlayed : String → ℚ) : List (String × ℤ) :=
  let isPlacement : String → Bool := fun id => decide (rankedPlayed id < PLACEMENT_GAMES)
  let anyPlacement := ids.any isPlacement
  let scaled := computeScaled ids sorted eloBefore isPlacement
  if anyPlacement then
    ids.map (fun id => (id, jsRound ((scaled.lookup id).getD 0)))
  else normalizeZeroSumAndRound scaled

/-- Variant A `banMinutesForViolationCount` (src/app/api/match/route.ts). -/
def banMinutesForViolationCount (count : ℚ) : ℚ :=
  if count = 1 then 30
  else if count = 2 then 60
  else if count = 3 then 120
  else if count = 4 then 360
  else if count = 5 then 720
  else 24 * 60

/-- Variant B `penaltyMsForCount`: escalation table in milliseconds. -/
def penaltyMsForCount (countAfter : ℚ) : ℚ :=
  if countAfter ≤ 1 then 30 * 60 * 1000
  else if countAfter = 2 then 60 * 60 * 1000
  else if countAfter = 3 then 2 * 60 * 60 * 1000
  else if countAfter = 4 then 4 * 60 * 60 * 1000
  else if countAfter = 5 then 8 * 60 * 60 * 1000
  else if countAfter = 6 then 16 * 60 * 60 * 1000
  else 24 * 60 * 60 * 1000

/-- The `winner` column of a round (source union type `Winner`). -/
inductive Winner where
  | imposter : Winner
  | unschuldig : Winner
deriving DecidableEq, Repr

/-- The fields of an inserted round row consumed by the points loop of the
`POST` handlers (both variants select exactly these plus the row id). -/
structure RoundData where
  imposter_discord_id : String
  winner : Winner
  aborted : Bool
deriving DecidableEq, Repr

/-- JavaScript `points[k] += v` on the points record: adds `v` at the first
occurrence of key `k`.  The record is created with exactly the participant
ids as keys, so in the handlers `k` is always present whenever the round
data is well-formed. -/
def bumpPoints : List (String × ℚ) → String → ℚ → List (String × ℚ)
  | [], _, _ => []
  | e :: rest, k, v => if e.1 = k then (e.1, e.2 + v) :: rest else e :: bumpPoints rest k v

/-- One iteration of the points loop of the `POST` handlers (identical
scoring in both variants): aborted rounds are skipped; an imposter win adds
2 to the imposter-role holder; otherwise every other participant gains 1. -/
def scoreRound (ids : List String) (pts : List (String × ℚ)) (r : RoundData) : List (String × ℚ) :=
  if r.aborted then pts
  else if r.winner = Winner.imposter then bumpPoints pts r.imposter_discord_id 2
  else ids.foldl (fun acc id => if id = r.imposter_discord_id then acc else bumpPoints acc id 1) pts

/-- The per-match points record: initialized to 0 for each participant id,
then folded over the (inserted) rounds by the points loop. -/
def computePoints (ids : List String) (rounds : List RoundData) : List (String × ℚ) :=
  rounds.foldl (scoreRound ids) (ids.map (fun id => (id, 0)))

/-- Modelled from the spec words of the Round Scorer contract (section 4.2),
as the refinement target for the points loop: the points one participant
gains from one round. -/
def specRoundPoints (r : RoundData) (id : String) : ℚ :=
  if r.aborted then 0
  else if r.winner = Winner.imposter then (if id = r.imposter_discord_id then 2 else 0)
  else (if id = r.imposter_discord_id then 0 else 1)

/-- The run walk of the display-side `calculateActualPlacement` (client
pages): entries are `(total_points, placement)` pairs already sorted by
points descending; `currentRank` is the next 1-based rank; every maximal
run of equal points is mapped (keyed by the original `placement` field) to
the arithmetic mean of the ranks the run occupies. -/
def placementWalk : ℕ → List (ℚ × ℚ) → ℚ → List (ℚ × ℚ)
  | _, [], _ => []
  | 0, _ :: _, _ => []
  | fuel + 1, p :: rest, currentRank =>
    let tied := rest.takeWhile (fun q => decide (q.1 = p.1))
    let tiedCount := tied.length + 1
    if 1 < tiedCount then
      let ranksSum := (((List.range tiedCount).map (fun idx : ℕ => currentRank + (idx : ℚ))).sum)
      let avgRank := ranksSum / tiedCount
      ((p :: tied).map (fun q => (q.2, avgRank))) ++
        placementWalk fuel (rest.dropWhile (fun q => decide (q.1 = p.1))) (currentRank + tiedCount)
    else (p.2, currentRank) :: placementWalk fuel rest (currentRank + 1)

/-- Display-side `calculateActualPlacement` (client pages): sorts the
entries by points descending (stable) and returns the map from each
entry's original `placement` key to its tie-averaged actual placement.
The walk gets the list length as fuel, which it can never exhaust. -/
def calculateActualPlacement (players : List (ℚ × ℚ)) : List (ℚ × ℚ) :=
  placementWalk players.length (players.insertionSort (fun a b => b.1 ≤ a.1)) 1

/-- The per-match placements persisted by settlement in both endpoint
variants (`resultsRows`): the participant at 0-based index `idx` of the
points-descending sort receives placement `idx + 1`. -/
def settlementResultPlacements (sorted : List (String × ℚ)) : List (String × ℚ) :=
  sorted.enum.map (fun e => (e.2.1, (e.1 : ℚ) + 1))

/-- The columns of a `players` row touched by the ingestion endpoints.
Absent/NULL columns are `none`; the handlers read them through `?? 0`
(`?? 1000` for the rating). -/
structure PlayerRow where
  last_name : Option String
  elo_ranked : Option ℚ
  games_casual : Option ℚ
  games_ranked : Option ℚ
  ranked_games_played : Option ℚ
  violations_count : Option ℚ
  banned_until : Option ℚ
  last_violation_at : Option ℚ
  wins_imposter_ranked : Option ℚ
  wins_crew_ranked : Option ℚ
  wins_imposter_casual : Option ℚ
  wins_crew_casual : Option ℚ
  updated_at : Option ℚ
deriving DecidableEq, Repr

/-- A freshly inserted `players` row: every column beyond the key is NULL
until set. -/
def emptyPlayerRow : PlayerRow :=
  { last_name := none, elo_ranked := none, games_casual := none, games_ranked := none,
    ranked_games_played := none, violations_count := none, banned_until := none,
    last_violation_at := none, wins_imposter_ranked := none, wins_crew_ranked := none,
    wins_imposter_casual := none, wins_crew_casual := none, updated_at := none }

/-- A `matches` row (columns used by the handlers). -/
structure MatchRow where
  id : ℕ
  guild_id : String
  mode : String
  started_at : Option ℚ
  ended_at : Option ℚ
  aborted_reason : Option String
deriving DecidableEq, Repr

/-- A `match_rounds` row.  The `category_id` produced by
`getOrCreateCategoryId` is abstracted: the raw slug/name strings are kept
on the row instead of a numeric id into a `categories` table (no claim
depends on category persistence).  The `points_imposter`,
`points_unschuldig` and `skipped` columns are only written by variant B. -/
structure RoundRow where
  id : ℕ
  match_id : ℕ
  round_no : ℚ
  category_slug : Option String
  category_name : Option String
  word : Option String
  imposter_discord_id : String
  winner : Winner
  win_method : String
  aborted : Bool
  aborted_reason : Option String
  points_imposter : Option ℚ
  points_unschuldig : Option ℚ
  skipped : Option Bool
deriving DecidableEq, Repr

/-- A `round_player_points` row. -/
structure RppRow where
  round_id : ℕ
  discord_id : String
  points : ℚ
deriving DecidableEq, Repr

/-- A `match_results` row. -/
structure ResultRow where
  match_id : ℕ
  discord_id : String
  total_points : ℚ
  placement : ℚ
  elo_delta : ℚ
deriving DecidableEq, Repr

/-- A `player_violations` row. -/
structure ViolationRow where
  guild_id : String
  discord_id : String
  violation_type : String
  source : String
  match_id : ℕ
  round_id : Option ℕ
  created_at : Option ℚ
deriving DecidableEq, Repr

/-- The storage collaborator's state: the tables the ingestion endpoints
read and write.  Players are keyed by discord id; the other tables are
append-only lists (row ids are assigned sequentially on insert). -/
structure Db where
  players : List (String × PlayerRow)
  matches' : List MatchRow
  match_rounds : List RoundRow
  round_player_points : List RppRow
  match_results : List ResultRow
  player_violations : List ViolationRow
deriving DecidableEq, Repr

/-- Update the row at the first occurrence of key `id` (update-by-id). -/
def setPlayerRow : List (String × PlayerRow) → String → (PlayerRow → PlayerRow) → List (String × PlayerRow)
  | [], _, _ => []
  | e :: rest, id, f => if e.1 = id then (e.1, f e.2) :: rest else e :: setPlayerRow rest id f

/-- The players upsert of both handlers: update `last_name`/`updated_at`
when the id exists, else insert a fresh row with those two columns set. -/
def upsertPlayerName (players : List (String × PlayerRow)) (id : String)
    (name : Option String) (now : ℚ) : List (String × PlayerRow) :=
  if (players.lookup id).isSome then
    setPlayerRow players id (fun r => { r with last_name := name, updated_at := some now })
  else players ++ [(id, { emptyPlayerRow with last_name := name, updated_at := some now })]

/-- Read `Number(byId[id]?.<field> ?? dflt)` from the player snapshot. -/
def playerQ (byId : List (String × PlayerRow)) (id : String)
    (field : PlayerRow → Option ℚ) (dflt : ℚ) : ℚ :=
  (((byId.lookup id).bind field).getD dflt)

/-- A JSON response of either handler: HTTP status plus the payload fields
the theorems observe. -/
structure Resp where
  status : ℕ
  ok : Bool
  error : Option String
  match_id : Option ℕ
  aborted : Option Bool
  anyPlacement : Option Bool
deriving DecidableEq, Repr

/-- An error response `j({ok: false, error}, status)`. -/
def respErr (status : ℕ) (msg : String) : Resp :=
  { status := status, ok := false, error := some msg, match_id := none,
    aborted := none, anyPlacement := none }

/-- Variant A success response after a violation abort. -/
def respOkAbort (mid : ℕ) : Resp :=
  { status := 200, ok := true, error := none, match_id := some mid,
    aborted := some true, anyPlacement := none }

/-- Variant A success response for a settled casual match. -/
def respOkCasual (mid : ℕ) : Resp :=
  { status := 200, ok := true, error := none, match_id := some mid,
    aborted := some false, anyPlacement := none }

/-- Variant A success response for a settled ranked match. -/
def respOkRanked (mid : ℕ) (ap : Bool) : Resp :=
  { status := 200, ok := true, error := none, match_id := some mid,
    aborted := some false, anyPlacement := some ap }

/-- Variant B success response (`aborted: Boolean(aborted_reason)`). -/
def respOkB (mid : ℕ) (ab : Bool) (ap : Option Bool) : Resp :=
  { status := 200, ok := true, error := none, match_id := some mid,
    aborted := some ab, anyPlacement := ap }

/-- JavaScript truthiness of an optional string (`Boolean(s)`). -/
def truthyStr : Option String → Bool
  | none => false
  | some s => s ≠ ""

/-- The shared-secret check of both handlers:
`!token || token !== process.env.BOT_INGEST_TOKEN` rejects a missing or
empty header and any mismatch (including an unset secret). -/
def authFailed (envToken token : Option String) : Bool :=
  match token with
  | none => true
  | some t => if t = "" then true else if envToken = some t then false else true

/-- Payload player object of variant A. -/
structure PlayerInA where
  discord_id : String
  display_name : Option String
  elo_before : Option ℚ
deriving DecidableEq, Repr

/-- Payload round object of variant A. -/
structure RoundInA where
  round_no : ℚ
  category_slug : Option String
  category_name : Option String
  word : Option String
  imposter_discord_id : String
  winner : Winner
  win_method : String
  aborted : Bool
  aborted_reason : Option String
deriving DecidableEq, Repr

/-- Payload violation object (same shape in both variants). -/
structure ViolationIn where
  type : String
  discord_id : String
  round_no : Option ℚ
deriving DecidableEq, Repr

/-- Variant A request payload.  `players`/`rounds` are `none` when the
field is absent or not an array (the `Array.isArray` checks). -/
structure PayloadA where
  guild_id : String
  mode : String
  started_at : Option ℚ
  ended_at : Option ℚ
  players : Option (List PlayerInA)
  rounds : Option (List RoundInA)
  violation : Option ViolationIn
deriving DecidableEq, Repr

/-- Payload player object of variant B (may carry precomputed totals). -/
structure PlayerInB where
  discord_id : String
  display_name : Option String
  elo_before : Option ℚ
  total_points : Option ℚ
deriving DecidableEq, Repr

/-- Payload round object of variant B. -/
structure RoundInB where
  round_no : Option ℚ
  category : Option String
  category_slug : Option String
  category_name : Option String
  word : Option String
  imposter_discord_id : String
  winner : Winner
  win_method : Option String
  aborted : Bool
  aborted_reason : Option String
deriving DecidableEq, Repr

/-- Variant B request payload. -/
structure PayloadB where
  guild_id : String
  mode : String
  started_at : Option ℚ
  ended_at : Option ℚ
  players : Option (List PlayerInB)
  rounds : Option (List RoundInB)
  ended_reason : Option String
  abort_reason : Option String
  violation : Option ViolationIn
deriving DecidableEq, Repr

/-- Variant B `normalizeMode`: `casual` and `zwanglos` map to `zwanglos`,
anything else (including unrecognized strings) to `ranked`. -/
def normalizeMode (mode : String) : String :=
  if mode = "casual" then "zwanglos" else if mode = "zwanglos" then "zwanglos" else "ranked"

/-- Variant B `mapWinMethod`. -/
def mapWinMethod (raw : Option String) : String :=
  let s := (raw.getD "").trim.toLower
  if s = "imposter_correct_guess" ∨ s = "guessed_word" then "guessed_word"
  else if s = "wrong_guess" ∨ s = "imposter_wrong_guess" ∨ s = "all_imposters_guessed_wrong" then "wrong_guess"
  else if s = "voted_out_wrong" ∨ s = "voted_out_innocent" then "voted_out_innocent"
  else if s = "voted_out_imposter_no_guess" ∨ s = "voted_out_imposter" then "voted_out_imposter"
  else if s = "timeout" then "timeout"
  else "other"

/-- The `match_rounds` row inserted by variant A for one payload round. -/
def roundRowA (match_id rid : ℕ) (r : RoundInA) : RoundRow :=
  { id := rid, match_id := match_id, round_no := r.round_no, category_slug := r.category_slug,
    category_name := r.category_name, word := r.word,
    imposter_discord_id := r.imposter_discord_id, winner := r.winner,
    win_method := r.win_method, aborted := r.aborted, aborted_reason := r.aborted_reason,
    points_imposter := none, points_unschuldig := none, skipped := none }

/-- The `match_rounds` row inserted by variant B for one payload round
(`round_no` defaults to the 1-based index, the win method is mapped). -/
def roundRowB (match_id rid idx : ℕ) (r : RoundInB) : RoundRow :=
  { id := rid, match_id := match_id, round_no := r.round_no.getD ((idx : ℚ) + 1),
    category_slug := r.category_slug,
    category_name := (match r.category_name with | some n => some n | none => r.category),
    word := r.word, imposter_discord_id := r.imposter_discord_id, winner := r.winner,
    win_method := mapWinMethod r.win_method, aborted := r.aborted,
    aborted_reason := r.aborted_reason, points_imposter := some 2,
    points_unschuldig := some 1, skipped := some false }

/-- The `round_player_points` rows generated by the points loop (identical
in both variants): one row per participant per non-aborted round. -/
def rppRowsOf (ids : List String) (rounds : List RoundRow) : List RppRow :=
  rounds.foldl (fun acc r =>
    if r.aborted then acc
    else if r.winner = Winner.imposter then
      acc ++ ids.map (fun id => RppRow.mk r.id id (if id = r.imposter_discord_id then 2 else 0))
    else
      acc ++ ids.map (fun id => RppRow.mk r.id id (if id = r.imposter_discord_id then 0 else 1))) []

/-- Variant A `roundWinsImposter[id]`: non-aborted imposter-win rounds in
which `id` held the imposter role. -/
def winsImposterCount (rounds : List RoundData) (id : String) : ℚ :=
  ((rounds.filter (fun r =>
    !r.aborted && decide (r.winner = Winner.imposter) && decide (r.imposter_discord_id = id))).length : ℚ)

/-- Variant A `roundWinsUnschuldig[id]`: non-aborted crew-win rounds in
which `id` did not hold the imposter role. -/
def winsCrewCount (rounds : List RoundData) (id : String) : ℚ :=
  ((rounds.filter (fun r =>
    !r.aborted && decide (r.winner ≠ Winner.imposter) && decide (r.imposter_discord_id ≠ id))).length : ℚ)

/-- Variant A `finalBan`: `currentBan && currentBan > newBanUntil ?
currentBan : newBanUntil` — the later of the pending and the new
suspension-until timestamps. -/
def finalBanA (currentBan : Option ℚ) (newBanUntil : ℚ) : ℚ :=
  match currentBan with
  | some c => if newBanUntil < c then c else newBanUntil
  | none => newBanUntil

/-- The `match_rounds` rows variant A inserts for a payload: sequential
row ids starting past the existing rows. -/
def insertedRoundsA (mid base : ℕ) (rounds : List RoundInA) : List RoundRow :=
  rounds.enum.map (fun e => roundRowA mid (base + e.1 + 1) e.2)

/-- The players upsert pass of variant A over the whole payload. -/
def upsertAllA (db : Db) (players : List PlayerInA) (now : ℚ) : List (String × PlayerRow) :=
  players.foldl (fun acc p => upsertPlayerName acc p.discord_id p.display_name now) db.players

/-- The players upsert pass of variant B over the whole payload. -/
def upsertAllB (db : Db) (players : List PlayerInB) (now : ℚ) : List (String × PlayerRow) :=
  players.foldl (fun acc p => upsertPlayerName acc p.discord_id p.display_name now) db.players

/-- Variant A violation branch (route.ts lines 349–430): append the
violation row, escalate the ban from the cached `violations_count`, flag
the match aborted, and persist abort results (ranked: violator −30 with
floor, others 0; casual: all 0), skipping placement/Elo settlement. -/
def violationBranchA (now : ℚ) (guild_id mode : String) (match_id : ℕ) (ids : List String)
    (points : List (String × ℚ)) (byId : List (String × PlayerRow))
    (insertedRounds : List RoundRow) (viol : ViolationIn) (db : Db) : Db × Resp :=
  let violator := viol.discord_id
  let viol_round_id : Option ℕ :=
    match viol.round_no with
    | some rn =>
        if rn = 0 then none
        else (insertedRounds.find? (fun r => decide (r.round_no = rn))).map (fun r => r.id)
    | none => none
  let vrow : ViolationRow :=
    { guild_id := guild_id, discord_id := violator, violation_type := viol.type,
      source := "system", match_id := match_id, round_id := viol_round_id, created_at := some now }
  let dbV : Db := { db with player_violations := db.player_violations ++ [vrow] }
  let oldCount := playerQ byId violator (fun r => r.violations_count) 0
  let newCount := oldCount + 1
  let minutes := banMinutesForViolationCount newCount
  let newBanUntil := now + minutes * 60000
  let currentBan := (byId.lookup violator).bind (fun r => r.banned_until)
  let finalBan := finalBanA currentBan newBanUntil
  let dbV2 : Db := { dbV with players := setPlayerRow dbV.players violator (fun r =>
      { r with violations_count := some newCount, banned_until := some finalBan,
               last_violation_at := some now }) }
  let dbV3 : Db := { dbV2 with matches' := dbV2.matches'.map (fun m =>
      if m.id = match_id then { m with aborted_reason := some ("violation:" ++ viol.type) } else m) }
  if mode = "ranked" then
    let resultsAbort := ids.map (fun id =>
      ResultRow.mk match_id id ((points.lookup id).getD 0) 0 (if id = violator then -30 else 0))
    let dbV4 : Db := { dbV3 with match_results := dbV3.match_results ++ resultsAbort }
    let currentElo := playerQ byId violator (fun r => r.elo_ranked) 1000
    let newElo := max ELO_FLOOR (currentElo - 30)
    let dbV5 : Db := { dbV4 with players := setPlayerRow dbV4.players violator (fun r =>
        { r with elo_ranked := some newElo, updated_at := some now }) }
    (dbV5, respOkAbort match_id)
  else
    let resultsAbort := ids.map (fun id =>
      ResultRow.mk match_id id ((points.lookup id).getD 0) 0 0)
    ({ dbV3 with match_results := dbV3.match_results ++ resultsAbort }, respOkAbort match_id)

/-- Variant A settlement after all validations passed (players upsert,
snapshot read, ranked gate, match/rounds/points/rpp persistence, then the
violation short-circuit or the normal casual/ranked settlement). -/
def settleA (now : ℚ) (guild_id mode : String) (started_at ended_at : Option ℚ)
    (players : List PlayerInA) (rounds : List RoundInA) (violation : Option ViolationIn)
    (db : Db) : Db × Resp :=
  let ids := players.map (fun p => p.discord_id)
  let upserted := upsertAllA db players now
  let db1 : Db := { db with players := upserted }
  let byId := db1.players
  match (if mode = "ranked" then
           ids.find? (fun id =>
             decide (playerQ byId id (fun r => r.games_casual) 0 < CASUAL_REQUIRED_FOR_RANKED))
         else none) with
  | some badId => (db1, respErr 400 ("player_not_qualified_for_ranked:" ++ badId))
  | none =>
    let match_id := db1.matches'.length + 1
    let mrow : MatchRow :=
      { id := match_id, guild_id := guild_id, mode := mode,
        started_at := some (started_at.getD now), ended_at := ended_at,
        aborted_reason := violation.map (fun v => "violation:" ++ v.type) }
    let db2 : Db := { db1 with matches' := db1.matches' ++ [mrow] }
    let base := db2.match_rounds.length
    let insertedRounds := insertedRoundsA match_id base rounds
    let db3 : Db := { db2 with match_rounds := db2.match_rounds ++ insertedRounds }
    let roundData := insertedRounds.map (fun r => RoundData.mk r.imposter_discord_id r.winner r.aborted)
    let points := computePoints ids roundData
    let db4 : Db := { db3 with round_player_points :=
      db3.round_player_points ++ rppRowsOf ids insertedRounds }
    match violation with
    | some viol => violationBranchA now guild_id mode match_id ids points byId insertedRounds viol db4
    | none =>
      let sorted := sortByPointsDesc points
      if mode = "zwanglos" then
        let resultsRows := sorted.enum.map (fun e =>
          ResultRow.mk match_id e.2.1 e.2.2 ((e.1 : ℚ) + 1) 0)
        let db5 : Db := { db4 with match_results := db4.match_results ++ resultsRows }
        let db6 : Db := { db5 with players := ids.foldl (fun acc id =>
            setPlayerRow acc id (fun r =>
              { r with updated_at := some now,
                       games_casual := some (playerQ byId id (fun q => q.games_casual) 0 + 1),
                       wins_imposter_casual := some (playerQ byId id (fun q => q.wins_imposter_casual) 0
                         + winsImposterCount roundData id),
                       wins_crew_casual := some (playerQ byId id (fun q => q.wins_crew_casual) 0
                         + winsCrewCount roundData id) })) db5.players }
        (db6, respOkCasual match_id)
      else
        let eloBeforeL := players.map (fun p => (p.discord_id,
          match p.elo_before with
          | some e => e
          | none => playerQ byId p.discord_id (fun r => r.elo_ranked) 1000))
        let eloBeforeF : String → ℚ := fun id => (eloBeforeL.lookup id).getD 0
        let rankedPlayedF : String → ℚ := fun id => playerQ byId id (fun r => r.ranked_games_played) 0
        let anyPlacement := ids.any (fun id => decide (rankedPlayedF id < PLACEMENT_GAMES))
        let finalDeltas := rankedFinalDeltas ids sorted eloBeforeF rankedPlayedF
        let resultsRows := sorted.enum.map (fun e =>
          ResultRow.mk match_id e.2.1 e.2.2 ((e.1 : ℚ) + 1) (((finalDeltas.lookup e.2.1).getD 0 : ℤ) : ℚ))
        let db5 : Db := { db4 with match_results := db4.match_results ++ resultsRows }
        let db6 : Db := { db5 with players := ids.foldl (fun acc id =>
            setPlayerRow acc id (fun r =>
              { r with updated_at := some now,
                       elo_ranked := some (max ELO_FLOOR
                         (playerQ byId id (fun q => q.elo_ranked) 1000
                           + (((finalDeltas.lookup id).getD 0 : ℤ) : ℚ))),
                       games_ranked := some (playerQ byId id (fun q => q.games_ranked) 0 + 1),
                       ranked_games_played := some (playerQ byId id (fun q => q.ranked_games_played) 0 + 1),
                       wins_imposter_ranked := some (playerQ byId id (fun q => q.wins_imposter_ranked) 0
                         + winsImposterCount roundData id),
                       wins_crew_ranked := some (playerQ byId id (fun q => q.wins_crew_ranked) 0
                         + winsCrewCount roundData id) })) db5.players }
        (db6, respOkRanked match_id anyPlacement)

/-- Variant A `POST` (src/app/api/match/route.ts): auth, shape and count
validation, then settlement. -/
def POST_A (envToken token : Option String) (now : ℚ) (body : PayloadA) (db : Db) : Db × Resp :=
  if authFailed envToken token then (db, respErr 401 "unauthorized")
  else if body.guild_id = "" ∨ body.mode = "" ∨ body.players = none ∨ body.rounds = none then
    (db, respErr 400 "missing fields")
  else
    let players := body.players.getD []
    let rounds := body.rounds.getD []
    if body.mode ≠ "ranked" ∧ body.mode ≠ "zwanglos" then
      (db, respErr 400 "mode must be ranked|zwanglos")
    else if players.length ≠ 4 then (db, respErr 400 "expected 4 players")
    else if rounds.length ≠ 5 then (db, respErr 400 "expected 5 rounds")
    else settleA now body.guild_id body.mode body.started_at body.ended_at players rounds body.violation db

/-- Variant B `insertViolationAndReturnPenalty`: append the violation row,
recount violations within the guild scope (including the new row), map the
count to the escalated penalty, and overwrite the player's
`violations_count`/`banned_until` (unconditionally) — returning
`(violations_count, penalty_ms, penalty_until)`. -/
def insertViolationAndReturnPenalty (db : Db) (now : ℚ)
    (guild_id discord_id violation_type : String) (match_id : ℕ) : Db × (ℚ × ℚ × ℚ) :=
  let vrow : ViolationRow :=
    { guild_id := guild_id, discord_id := discord_id, violation_type := violation_type,
      source := "discord", match_id := match_id, round_id := none, created_at := some now }
  let db1 : Db := { db with player_violations := db.player_violations ++ [vrow] }
  let violations_count : ℚ :=
    ((db1.player_violations.filter (fun v =>
      decide (v.guild_id = guild_id) && decide (v.discord_id = discord_id))).length : ℚ)
  let penalty_ms := penaltyMsForCount violations_count
  let penalty_until := now + penalty_ms
  let db2 : Db := { db1 with players := setPlayerRow db1.players discord_id (fun r =>
      { r with violations_count := some violations_count, banned_until := some penalty_until,
               last_violation_at := some now, updated_at := some now }) }
  (db2, (violations_count, penalty_ms, penalty_until))

/-- Variant B settlement after validation: upsert, snapshot read, ranked
gate, match insert, violation escalation (no short-circuit), rounds or
precomputed-totals points, then casual or ranked settlement. -/
def settleB (now : ℚ) (body : PayloadB) (players : List PlayerInB) (db : Db) : Db × Resp :=
  let modeDb := normalizeMode body.mode
  let guild_id := body.guild_id
  let ids := players.map (fun p => p.discord_id)
  let upserted := upsertAllB db players now
  let db1 : Db := { db with players := upserted }
  let byId := db1.players
  match (if modeDb = "ranked" then
           ids.find? (fun id =>
             decide (playerQ byId id (fun r => r.games_casual) 0 < CASUAL_REQUIRED_FOR_RANKED))
         else none) with
  | some badId => (db1, respErr 400 ("player_not_qualified_for_ranked:" ++ badId))
  | none =>
    let rounds := body.rounds.getD []
    let hasRounds := rounds.length ≠ 0
    let startedAtIso := body.started_at.getD now
    let endedAtIso := body.ended_at.getD now
    let aborted_reason : Option String :=
      match body.violation with
      | some v => if v.type = "" then body.abort_reason else some ("violation:" ++ v.type)
      | none => body.abort_reason
    let match_id := db1.matches'.length + 1
    let mrow : MatchRow :=
      { id := match_id, guild_id := guild_id, mode := modeDb,
        started_at := some startedAtIso, ended_at := some endedAtIso,
        aborted_reason := aborted_reason }
    let db2 : Db := { db1 with matches' := db1.matches' ++ [mrow] }
    let db3 : Db :=
      match body.violation with
      | some v =>
          if v.type ≠ "" ∧ v.discord_id ≠ "" then
            (insertViolationAndReturnPenalty db2 now guild_id v.discord_id v.type match_id).1
          else db2
      | none => db2
    let base := db3.match_rounds.length
    let insertedRounds := rounds.enum.map (fun e => roundRowB match_id (base + e.1 + 1) e.1 e.2)
    let db4 : Db :=
      if hasRounds then { db3 with match_rounds := db3.match_rounds ++ insertedRounds } else db3
    let roundData := insertedRounds.map (fun r => RoundData.mk r.imposter_discord_id r.winner r.aborted)
    let points :=
      if hasRounds then computePoints ids roundData
      else players.map (fun p => (p.discord_id, p.total_points.getD 0))
    let db5 : Db :=
      if hasRounds then
        { db4 with round_player_points := db4.round_player_points ++ rppRowsOf ids insertedRounds }
      else db4
    let sorted := sortByPointsDesc points
    if modeDb = "zwanglos" then
      let resultsRows := sorted.enum.map (fun e =>
        ResultRow.mk match_id e.2.1 e.2.2 ((e.1 : ℚ) + 1) 0)
      let db6 : Db := { db5 with match_results := db5.match_results ++ resultsRows }
      let db7 : Db := { db6 with players := ids.foldl (fun acc id =>
          setPlayerRow acc id (fun r =>
            { r with updated_at := some now,
                     games_casual := some (playerQ byId id (fun q => q.games_casual) 0 + 1) })) db6.players }
      (db7, respOkB match_id (truthyStr aborted_reason) none)
    else
      let eloBeforeL := players.map (fun p => (p.discord_id,
        match p.elo_before with
        | some e => e
        | none => playerQ byId p.discord_id (fun r => r.elo_ranked) 1000))
      let eloBeforeF : String → ℚ := fun id => (eloBeforeL.lookup id).getD 0
      let rankedPlayedF : String → ℚ := fun id => playerQ byId id (fun r => r.ranked_games_played) 0
      let anyPlacement := ids.any (fun id => decide (rankedPlayedF id < PLACEMENT_GAMES))
      let finalDeltas := rankedFinalDeltas ids sorted eloBeforeF rankedPlayedF
      let resultsRows := sorted.enum.map (fun e =>
        ResultRow.mk match_id e.2.1 e.2.2 ((e.1 : ℚ) + 1) (((finalDeltas.lookup e.2.1).getD 0 : ℤ) : ℚ))
      let db6 : Db := { db5 with match_results := db5.match_results ++ resultsRows }
      let db7 : Db := { db6 with players := ids.foldl (fun acc id =>
          setPlayerRow acc id (fun r =>
            { r with updated_at := some now,
                     elo_ranked := some (max ELO_FLOOR
                       (playerQ byId id (fun q => q.elo_ranked) 1000
                         + (((finalDeltas.lookup id).getD 0 : ℤ) : ℚ))),
                     games_ranked := some (playerQ byId id (fun q => q.games_ranked) 0 + 1),
                     ranked_games_played := some (playerQ byId id (fun q => q.ranked_games_played) 0 + 1) })) db6.players }
      (db7, respOkB match_id (truthyStr aborted_reason) (some anyPlacement))

/-- Variant B `POST` (the unnamed second copy of app/api/match/route.ts):
auth, shape and count checks (no rounds-count requirement, unknown modes
normalize to ranked), then settlement. -/
def POST_B (envToken token : Option String) (now : ℚ) (body : PayloadB) (db : Db) : Db × Resp :=
  if authFailed envToken token then (db, respErr 401 "unauthorized")
  else if body.guild_id = "" ∨ body.mode = "" ∨ body.players = none then
    (db, respErr 400 "missing fields")
  else
    let players := body.players.getD []
    if players.length ≠ 4 then (db, respErr 400 "expected 4 players")
    else settleB now body players db

/-- The round data variant A stores for a payload round (the fields the
points loop reads back from the inserted rows). -/
def roundDataOfA (rounds : List RoundInA) : List RoundData :=
  rounds.map (fun r => RoundData.mk r.imposter_discord_id r.winner r.aborted)

/-- An empty database. -/
def emptyDb : Db := ⟨[], [], [], [], [], []⟩

/-- A player row qualified for ranked play and out of placement phase. -/
def qualifiedRow : PlayerRow :=
  { emptyPlayerRow with elo_ranked := some 1000, games_casual := some 5,
                        ranked_games_played := some 6 }

/-- A database holding four qualified, out-of-placement players. -/
def dbQualified : Db :=
  ⟨[("p1", qualifiedRow), ("p2", qualifiedRow), ("p3", qualifiedRow), ("p4", qualifiedRow)],
   [], [], [], [], []⟩

/-- A variant A payload player carrying only a discord id. -/
def playerA (i : String) : PlayerInA := ⟨i, none, none⟩

/-- A minimal variant A payload round: imposter win by `imp`. -/
def roundA (n : ℚ) (imp : String) : RoundInA :=
  ⟨n, none, none, none, imp, Winner.imposter, "guessed_word", false, none⟩

/-- A well-formed ranked variant A report for four fresh participants. -/
def freshRankedReport : PayloadA :=
  ⟨"g", "ranked", none, none, some [playerA "p1", playerA "p2", playerA "p3", playerA "p4"],
   some [roundA 1 "p1", roundA 2 "p2", roundA 3 "p3", roundA 4 "p4", roundA 5 "p1"], none⟩

/-- A totals-shaped report (no rounds list) in variant A's payload shape. -/
def totalsOnlyReportA : PayloadA :=
  ⟨"g", "zwanglos", none, none,
   some [playerA "p1", playerA "p2", playerA "p3", playerA "p4"], none, none⟩

/-- A ranked variant A report carrying a violation by "p2". -/
def violationReportA : PayloadA :=
  ⟨"g", "ranked", none, none, some [playerA "p1", playerA "p2", playerA "p3", playerA "p4"],
   some [roundA 1 "p1", roundA 2 "p2", roundA 3 "p3", roundA 4 "p4", roundA 5 "p1"],
   some ⟨"afk", "p2", none⟩⟩

/-- A variant B payload player carrying a precomputed total. -/
def playerB (i : String) (tp : ℚ) : PlayerInB := ⟨i, none, none, some tp⟩

/-- A ranked variant B report with precomputed totals [5,3,3,2] and a
violation by the first-placed participant "p1". -/
def violationReportB : PayloadB :=
  ⟨"g", "ranked", none, none,
   some [playerB "p1" 5, playerB "p2" 3, playerB "p3" 3, playerB "p4" 2],
   none, none, none, some ⟨"afk", "p1", none⟩⟩

/-- A database holding one player with a far-future pending suspension. -/
def dbLongBan : Db :=
  ⟨[("p", { emptyPlayerRow with banned_until := some 1000000000000 })], [], [], [], [], []⟩

/-- A database of four qualified players in which "p2" carries a pending
far-future suspension and two prior violations on the cached counter. -/
def dbQualifiedBan : Db :=
  ⟨[("p1", qualifiedRow),
    ("p2", { qualifiedRow with banned_until := some 1000000000000, violations_count := some 2 }),
    ("p3", qualifiedRow), ("p4", qualifiedRow)], [], [], [], [], []⟩

/-- A variant B casual report carrying precomputed totals [5,3,3,2] and no
rounds list. -/
def totalsOnlyReportB : PayloadB :=
  ⟨"g", "casual", none, none,
   some [playerB "p1" 5, playerB "p2" 3, playerB "p3" 3, playerB "p4" 2],
   none, none, none, none⟩


/-- C4: the dampened delta is unchanged when the base delta is 0, the
rating difference is 0, or its magnitude is below 100; otherwise, with
fraction p = 1/5 on [100, 199], 2/5 on [200, 299] and 3/5 from 300 up, a
positive base delta of an above-lobby participant shrinks to base·(1−p)
and a negative one grows to base·(1+p), and symmetrically below lobby. -/
theorem applyLobbyMultiplierFloat_dampening (baseDelta playerElo avgOthers p : ℚ) :
    (baseDelta = 0 → applyLobbyMultiplierFloat baseDelta playerElo avgOthers = baseDelta) ∧
    (playerElo - avgOthers = 0 → applyLobbyMultiplierFloat baseDelta playerElo avgOthers = baseDelta) ∧
    (|playerElo - avgOthers| < 100 → applyLobbyMultiplierFloat baseDelta playerElo avgOthers = baseDelta) ∧
    (((100 ≤ |playerElo - avgOthers| ∧ |playerElo - avgOthers| ≤ 199 ∧ p = 1 / 5) ∨
      (200 ≤ |playerElo - avgOthers| ∧ |playerElo - avgOthers| ≤ 299 ∧ p = 2 / 5) ∨
      (300 ≤ |playerElo - avgOthers| ∧ p = 3 / 5)) →
      (0 < playerElo - avgOthers → 0 < baseDelta →
        applyLobbyMultiplierFloat baseDelta playerElo avgOthers = baseDelta * (1 - p)) ∧
      (0 < playerElo - avgOthers → baseDelta < 0 →
        applyLobbyMultiplierFloat baseDelta playerElo avgOthers = baseDelta * (1 + p)) ∧
      (playerElo - avgOthers < 0 → 0 < baseDelta →
        applyLobbyMultiplierFloat baseDelta playerElo avgOthers = baseDelta * (1 + p)) ∧
      (playerElo - avgOthers < 0 → baseDelta < 0 →
        applyLobbyMultiplierFloat baseDelta playerElo avgOthers = baseDelta * (1 - p))) := by
  refine ⟨?_, ?_, ?_, ?_⟩
  · intro h; simp [applyLobbyMultiplierFloat, h]
  · intro h
    by_cases hb : baseDelta = 0
    · simp [applyLobbyMultiplierFloat, hb]
    · norm_num [applyLobbyMultiplierFloat, hb, h, clampPct]
  · intro h
    by_cases hb : baseDelta = 0
    · simp [applyLobbyMultiplierFloat, hb]
    · have hc : clampPct |playerElo - avgOthers| = 0 := by
        rw [clampPct, if_neg (by linarith), if_neg (by linarith), if_neg (by linarith)]
      simp [applyLobbyMultiplierFloat, hb, hc]
  · intro hp
    have hpct : clampPct |playerElo - avgOthers| = p := by
      rw [clampPct]
      rcases hp with ⟨h1, h2, rfl⟩ | ⟨h1, h2, rfl⟩ | ⟨h1, rfl⟩ <;> split_ifs <;>
        first | rfl | linarith
    have hpne : p ≠ 0 := by
      rcases hp with ⟨h1, h2, rfl⟩ | ⟨h1, h2, rfl⟩ | ⟨h1, rfl⟩ <;> norm_num
    refine ⟨?_, ?_, ?_, ?_⟩
    · intro hd hb
      rw [applyLobbyMultiplierFloat, if_neg (by linarith)]
      simp only [hpct, if_neg hpne, if_pos hd, if_pos hb]
    · intro hd hb
      rw [applyLobbyMultiplierFloat, if_neg (by linarith)]
      simp only [hpct, if_neg hpne, if_pos hd, if_neg (not_lt.mpr hb.le)]
    · intro hd hb
      rw [applyLobbyMultiplierFloat, if_neg (by linarith)]
      simp only [hpct, if_neg hpne, if_neg (not_lt.mpr hd.le), if_pos hd, if_pos hb]
    · intro hd hb
      rw [applyLobbyMultiplierFloat, if_neg (by linarith)]
      simp only [hpct, if_neg hpne, if_neg (not_lt.mpr hd.le), if_pos hd,
        if_neg (not_lt.mpr hb.le)]

/-- Witness for C4: a +30 base delta 200 above the lobby shrinks to 18; a
−30 base delta 200 below the lobby shrinks to −18. -/
theorem applyLobbyMultiplierFloat_dampening_witness :
    applyLobbyMultiplierFloat 30 1200 1000 = 18 ∧ applyLobbyMultiplierFloat (-30) 800 1000 = -18 := by
  constructor
  · have h := (applyLobbyMultiplierFloat_dampening 30 1200 1000 (2/5)).2.2.2
      (Or.inr (Or.inl (by norm_num))) |>.1 (by norm_num) (by norm_num)
    rw [h]; norm_num
  · have h := (applyLobbyMultiplierFloat_dampening (-30) 800 1000 (2/5)).2.2.2
      (Or.inr (Or.inl (by norm_num))) |>.2.2.2 (by norm_num) (by norm_num)
    rw [h]; norm_num

/-- Counterexample for C6: variant A's `banMinutesForViolationCount` maps
a violation count of 4 to 360 minutes (6h), not the claimed 240. -/
theorem banMinutesForViolationCount_four_is_360 :
    banMinutesForViolationCount 4 = 360 ∧ banMinutesForViolationCount 4 ≠ 240 := by
  constructor
  · norm_num [banMinutesForViolationCount]
  · norm_num [banMinutesForViolationCount]

/-- C6 (amended): variant B's `penaltyMsForCount` realizes the claimed
escalation — counts 1..8 map to [30,60,120,240,480,960,1440,1440] minutes,
every count from 7 up is capped at 1440 minutes, and the mapping is
non-decreasing on counts ≥ 1; variant A's `banMinutesForViolationCount`
instead maps counts 1..8 to [30,60,120,360,720,1440,1440,1440]. -/
theorem penaltyMsForCount_escalation :
    (penaltyMsForCount 1 = 30 * 60000 ∧ penaltyMsForCount 2 = 60 * 60000 ∧
     penaltyMsForCount 3 = 120 * 60000 ∧ penaltyMsForCount 4 = 240 * 60000 ∧
     penaltyMsForCount 5 = 480 * 60000 ∧ penaltyMsForCount 6 = 960 * 60000 ∧
     penaltyMsForCount 7 = 1440 * 60000 ∧ penaltyMsForCount 8 = 1440 * 60000) ∧
    (∀ n : ℕ, 7 ≤ n → penaltyMsForCount n = 1440 * 60000) ∧
    (∀ m n : ℕ, 1 ≤ m → m ≤ n → penaltyMsForCount m ≤ penaltyMsForCount n) ∧
    (banMinutesForViolationCount 1 = 30 ∧ banMinutesForViolationCount 2 = 60 ∧
     banMinutesForViolationCount 3 = 120 ∧ banMinutesForViolationCount 4 = 360 ∧
     banMinutesForViolationCount 5 = 720 ∧ banMinutesForViolationCount 6 = 1440 ∧
     banMinutesForViolationCount 7 = 1440 ∧ banMinutesForViolationCount 8 = 1440) := by
  have hcap : ∀ n : ℕ, 7 ≤ n → penaltyMsForCount n = 1440 * 60000 := by
    intro n hn
    have h1 : ¬((n : ℚ) ≤ 1) := by
      rw [not_le]; exact_mod_cast Nat.lt_of_lt_of_le (by norm_num) hn
    have h2 : ¬((n : ℚ) = 2) := by exact_mod_cast Nat.ne_of_gt (by omega)
    have h3 : ¬((n : ℚ) = 3) := by exact_mod_cast Nat.ne_of_gt (by omega)
    have h4 : ¬((n : ℚ) = 4) := by exact_mod_cast Nat.ne_of_gt (by omega)
    have h5 : ¬((n : ℚ) = 5) := by exact_mod_cast Nat.ne_of_gt (by omega)
    have h6 : ¬((n : ℚ) = 6) := by exact_mod_cast Nat.ne_of_gt (by omega)
    rw [penaltyMsForCount, if_neg h1, if_neg h2, if_neg h3, if_neg h4, if_neg h5, if_neg h6]
    norm_num
  refine ⟨by norm_num [penaltyMsForCount], hcap, ?_, by norm_num [banMinutesForViolationCount]⟩
  intro m n h1m hmn
  rcases le_or_lt 7 m with hm | hm
  · rw [hcap m hm, hcap n (le_trans hm hmn)]
  · rcases le_or_lt 7 n with hn | hn
    · rw [hcap n hn]
      interval_cases m <;> norm_num [penaltyMsForCount]
    · interval_cases m <;> interval_cases n <;> norm_num [penaltyMsForCount]

/-- Witness for C6: a ninth violation in variant B is still capped at 24
hours, and counts 4 ≤ 5 give non-decreasing penalties. -/
theorem penaltyMsForCount_escalation_witness :
    penaltyMsForCount ((9 : ℕ) : ℚ) = 1440 * 60000 ∧
    penaltyMsForCount ((4 : ℕ) : ℚ) ≤ penaltyMsForCount ((5 : ℕ) : ℚ) := by
  exact ⟨penaltyMsForCount_escalation.2.1 9 (by norm_num),
         penaltyMsForCount_escalation.2.2.1 4 5 (by norm_num) (by norm_num)⟩

/-- Association-list lookup on a cons cell, phrased with a propositional
if-then-else. -/
theorem lookup_cons_ite {β : Type} (a k : String) (b : β) (l : List (String × β)) :
    List.lookup a ((k, b) :: l) = if a = k then some b else List.lookup a l := by
  rw [List.lookup_cons]
  by_cases h : a = k
  · simp [h]
  · simp [h, beq_false_of_ne h]

/-- Effect of `bumpPoints` on a lookup: the value at `k` grows by `v`,
every other key is untouched. -/
theorem lookup_bumpPoints (l : List (String × ℚ)) (k id : String) (v : ℚ) :
    (bumpPoints l k v).lookup id = if id = k then (l.lookup id).map (· + v) else l.lookup id := by
  induction l with
  | nil => simp only [bumpPoints, List.lookup_nil, Option.map_none']; split <;> rfl
  | cons e rest ih =>
    obtain ⟨a, b⟩ := e
    simp only [bumpPoints]
    by_cases hak : a = k
    · rw [if_pos hak]
      rw [lookup_cons_ite, lookup_cons_ite]
      by_cases hid : id = a
      · subst hak hid; simp
      · simp [hid, hak ▸ hid]
    · rw [if_neg hak, lookup_cons_ite, lookup_cons_ite]
      by_cases hid : id = a
      · subst hid
        simp [hak]
      · rw [if_neg hid, if_neg hid, ih]

/-- Effect of the crew-win inner loop on a lookup: `id` gains one point per
occurrence in `ids` away from the imposter role. -/
theorem lookup_crewFold (imp : String) (ids : List String) (l : List (String × ℚ))
    (id : String) (w : ℚ) (hw : l.lookup id = some w) :
    (ids.foldl (fun acc i => if i = imp then acc else bumpPoints acc i 1) l).lookup id =
      some (w + ((ids.filter (fun i => decide (i ≠ imp))).count id : ℚ)) := by
  induction ids generalizing l w with
  | nil => simpa using hw
  | cons i rest ih =>
    simp only [List.foldl_cons, List.filter_cons]
    by_cases hi : i = imp
    · rw [if_pos hi]
      have : decide (i ≠ imp) = false := by simp [hi]
      rw [this]
      exact ih l w hw
    · rw [if_neg hi]
      have hdec : decide (i ≠ imp) = true := by simp [hi]
      rw [hdec, if_pos rfl]
      by_cases hid : id = i
      · have hb : (bumpPoints l i 1).lookup id = some (w + 1) := by
          rw [lookup_bumpPoints, if_pos hid, hw]; rfl
        rw [ih _ _ hb]
        subst hid
        rw [List.count_cons_self]
        push_cast
        ring_nf
      · have hb : (bumpPoints l i 1).lookup id = some w := by
          rw [lookup_bumpPoints, if_neg hid, hw]
        rw [ih _ _ hb, List.count_cons_of_ne hid]

/-- Effect of one round on a participant's points: exactly the per-round
contribution of the spec. -/
theorem lookup_scoreRound (ids : List String) (pts : List (String × ℚ)) (r : RoundData)
    (id : String) (w : ℚ) (hw : pts.lookup id = some w) (hnd : ids.Nodup) (hid : id ∈ ids) :
    (scoreRound ids pts r).lookup id = some (w + specRoundPoints r id) := by
  unfold scoreRound specRoundPoints
  by_cases hab : r.aborted
  · simp [hab, hw]
  · simp only [hab, if_false, Bool.false_eq_true]
    by_cases hwin : r.winner = Winner.imposter
    · rw [if_pos hwin, if_pos hwin, lookup_bumpPoints, hw]
      by_cases him : id = r.imposter_discord_id
      · rw [if_pos him, if_pos him]; rfl
      · rw [if_neg him, if_neg him]
        norm_num
    · rw [if_neg hwin, if_neg hwin, lookup_crewFold r.imposter_discord_id ids pts id w hw]
      by_cases him : id = r.imposter_discord_id
      · rw [if_pos him]
        have : (ids.filter (fun i => decide (i ≠ r.imposter_discord_id))).count id = 0 := by
          rw [List.count_eq_zero]
          intro h
          have := List.of_mem_filter h
          simp [him] at this
        rw [this]; norm_num
      · rw [if_neg him]
        have : (ids.filter (fun i => decide (i ≠ r.imposter_discord_id))).count id = 1 := by
          rw [List.count_filter (by simpa using him)]
          exact List.count_eq_one_of_mem hnd hid
        rw [this]; norm_num

/-- The points record starts at zero for every participant. -/
theorem lookup_init_zero (ids : List String) (id : String) (hid : id ∈ ids) :
    (ids.map (fun i => (i, (0 : ℚ)))).lookup id = some 0 := by
  induction ids with
  | nil => cases hid
  | cons i rest ih =>
    simp only [List.map_cons]
    rw [lookup_cons_ite]
    by_cases h : id = i
    · rw [if_pos h]
    · rw [if_neg h]
      rcases List.mem_cons.mp hid with h1 | h1
      · exact absurd h1 h
      · exact ih h1

/-- C5: a participant's match total computed by the points loop equals the
sum over the rounds of the per-round contribution — 2 to the imposter-role
holder of an imposter-won round, 1 to each other participant of a
crew-won round, and 0 to everyone for an aborted round. -/
theorem computePoints_matches_spec (ids : List String) (rounds : List RoundData) (id : String)
    (hnd : ids.Nodup) (hid : id ∈ ids) :
    (computePoints ids rounds).lookup id =
      some ((rounds.map (fun r => specRoundPoints r id)).sum) := by
  suffices h : ∀ (init : List (String × ℚ)) (w : ℚ), init.lookup id = some w →
      (rounds.foldl (scoreRound ids) init).lookup id =
        some (w + (rounds.map (fun r => specRoundPoints r id)).sum) by
    have := h (ids.map (fun i => (i, 0))) 0 (lookup_init_zero ids id hid)
    simpa [computePoints] using this
  induction rounds with
  | nil => intro init w hw; simpa using hw
  | cons r rest ih =>
    intro init w hw
    simp only [List.foldl_cons, List.map_cons, List.sum_cons]
    rw [ih _ _ (lookup_scoreRound ids init r id w hw hnd hid)]
    ring_nf

/-- Witness for C5: in a match where "a" wins one round as imposter, "b"
loses one as imposter, and a third round is aborted, participant "d"
scores exactly 1 point, matching the per-round spec sum. -/
theorem computePoints_matches_spec_witness :
    (computePoints ["a", "b", "c", "d"]
      [⟨"a", Winner.imposter, false⟩, ⟨"b", Winner.unschuldig, false⟩,
       ⟨"c", Winner.imposter, true⟩]).lookup "d" = some 1 := by
  have h := computePoints_matches_spec ["a", "b", "c", "d"]
    [⟨"a", Winner.imposter, false⟩, ⟨"b", Winner.unschuldig, false⟩,
     ⟨"c", Winner.imposter, true⟩] "d" (by decide) (by decide)
  rw [h]
  have e1 : ("d" : String) ≠ "a" := by decide
  have e2 : ("d" : String) ≠ "b" := by decide
  simp [specRoundPoints, e1, e2]

theorem setAddInt_keys (l : List (String × ℤ)) (k : String) (s : ℤ) :
    (setAddInt l k s).map Prod.fst = l.map Prod.fst := by
  induction l with
  | nil => rfl
  | cons e rest ih =>
    simp only [setAddInt]
    split
    · simp
    · simp [ih]

theorem sumValuesZ_setAddInt (l : List (String × ℤ)) (k : String) (s : ℤ)
    (hk : k ∈ l.map Prod.fst) :
    sumValuesZ (setAddInt l k s) = sumValuesZ l + s := by
  induction l with
  | nil => simp at hk
  | cons e rest ih =>
    simp only [setAddInt]
    by_cases he : e.1 = k
    · rw [if_pos he]
      simp only [sumValuesZ, List.map_cons, List.sum_cons]
      ring
    · rw [if_neg he]
      simp only [List.map_cons, List.mem_cons] at hk
      rcases hk with hk | hk
      · exact absurd hk.symm he
      · simp only [sumValuesZ, List.map_cons, List.sum_cons] at *
        rw [ih hk]
        ring

theorem redistLoop_sum (order : List (String × ℚ)) (h0 : order ≠ []) :
    ∀ (fuel i : ℕ) (rounded : List (String × ℤ)) (residual : ℤ),
      order.length * 3 - i ≤ fuel →
      (∀ x ∈ order, x.1 ∈ rounded.map Prod.fst) →
      residual.natAbs + i ≤ order.length * 3 →
      sumValuesZ rounded = -residual →
      sumValuesZ (redistLoop order fuel rounded residual i) = 0 := by
  intro fuel
  induction fuel with
  | zero =>
    intro i rounded residual hfuel hkeys hres hsum
    have hr0 : residual = 0 := by omega
    rw [redistLoop, hsum, hr0, neg_zero]
  | succ n ih =>
    intro i rounded residual hfuel hkeys hres hsum
    by_cases hr0 : residual = 0
    · rw [redistLoop, if_neg (by simp [hr0]), hsum, hr0, neg_zero]
    · have hlt : i < order.length * 3 := by
        have : 1 ≤ residual.natAbs := by omega
        omega
      rw [redistLoop, if_pos ⟨hr0, hlt⟩]
      have hpos : 0 < order.length := List.length_pos.mpr h0
      have hmod : i % order.length < order.length := Nat.mod_lt _ hpos
      have hpick : (order.getD (i % order.length) ("", 0)).1 ∈ rounded.map Prod.fst := by
        apply hkeys
        rw [List.getD_eq_getElem?_getD, List.getElem?_eq_getElem hmod]
        exact List.getElem_mem _
      set pick := (order.getD (i % order.length) ("", 0)).1 with hpickdef
      set step : ℤ := if 0 < residual then 1 else -1 with hstep
      apply ih (i + 1)
      · omega
      · intro x hx
        rw [setAddInt_keys]
        exact hkeys x hx
      · have : (residual - step).natAbs + 1 = residual.natAbs := by
          rcases lt_trichotomy residual 0 with h | h | h
          · rw [hstep, if_neg (by omega)]; omega
          · exact absurd h hr0
          · rw [hstep, if_pos h]; omega
        omega
      · rw [sumValuesZ_setAddInt _ _ _ hpick, hsum]
        ring

theorem jsRound_sub_abs_le (q : ℚ) : |(jsRound q : ℚ) - q| ≤ 1 / 2 := by
  rw [abs_le]
  have h1 : (jsRound q : ℚ) ≤ q + 1 / 2 := Int.floor_le _
  have h2 : q + 1 / 2 - 1 < (jsRound q : ℚ) := Int.sub_one_lt_floor _
  constructor <;> linarith

theorem intCast_list_sum (l : List ℤ) : ((l.sum : ℤ) : ℚ) = (l.map (fun z : ℤ => (z : ℚ))).sum := by
  induction l with
  | nil => simp
  | cons a rest ih => simp only [List.sum_cons, List.map_cons, Int.cast_add, ih]

theorem abs_list_sum_le (l : List ℚ) : |l.sum| ≤ (l.map (fun x => |x|)).sum := by
  induction l with
  | nil => simp
  | cons a rest ih =>
    simp only [List.sum_cons, List.map_cons]
    calc |a + rest.sum| ≤ |a| + |rest.sum| := abs_add _ _
    _ ≤ |a| + (rest.map (fun x => |x|)).sum := by linarith

theorem list_sum_le_length_mul (l : List ℚ) (c : ℚ) (h : ∀ x ∈ l, x ≤ c) :
    l.sum ≤ l.length * c := by
  induction l with
  | nil => simp
  | cons a rest ih =>
    simp only [List.sum_cons, List.length_cons]
    have h1 := h a (List.mem_cons_self _ _)
    have h2 := ih (fun x hx => h x (List.mem_cons_of_mem _ hx))
    push_cast
    nlinarith

theorem sumValuesQ_map_sub (l : List (String × ℚ)) (m : ℚ) :
    sumValuesQ (l.map (fun e => (e.1, e.2 - m))) = sumValuesQ l - l.length * m := by
  induction l with
  | nil => simp [sumValuesQ]
  | cons e rest ih =>
    simp only [sumValuesQ, List.map_cons, List.sum_cons, List.length_cons] at *
    rw [ih]
    push_cast
    ring

theorem normalizeZeroSumAndRound_sum (deltasFloat : List (String × ℚ))
    (h : deltasFloat ≠ []) :
    sumValuesZ (normalizeZeroSumAndRound deltasFloat) = 0 := by
  have hn : (0 : ℚ) < deltasFloat.length := by
    have := List.length_pos.mpr h
    exact_mod_cast this
  rw [normalizeZeroSumAndRound]
  set n : ℚ := (deltasFloat.length : ℚ) with hn_def
  set mean := sumValuesQ deltasFloat / n with hmean
  set zeroFloats := deltasFloat.map (fun e => (e.1, e.2 - mean)) with hzf
  set rounded := zeroFloats.map (fun e => (e.1, jsRound e.2)) with hrnd
  set frac := zeroFloats.map (fun e => (e.1, e.2 - (jsRound e.2 : ℚ))) with hfrac
  -- the mean-centered values sum to exactly zero
  have hzsum : sumValuesQ zeroFloats = 0 := by
    rw [hzf, sumValuesQ_map_sub, hmean]
    field_simp
  -- the rounded sum is small: |sum| ≤ n/2
  have hbound : |(sumValuesZ rounded : ℚ)| ≤ n / 2 := by
    have hcast : (sumValuesZ rounded : ℚ) =
        ((zeroFloats.map Prod.snd).map (fun z => ((jsRound z : ℤ) : ℚ))).sum := by
      rw [sumValuesZ, hrnd, intCast_list_sum]
      congr 1
      simp [List.map_map, Function.comp]
    have hsplit : ((zeroFloats.map Prod.snd).map (fun z => ((jsRound z : ℤ) : ℚ))).sum =
        ((zeroFloats.map Prod.snd).map (fun z => ((jsRound z : ℚ) - z))).sum
          + sumValuesQ zeroFloats := by
      rw [sumValuesQ]
      induction (zeroFloats.map Prod.snd) with
      | nil => simp
      | cons a rest ih => simp only [List.map_cons, List.sum_cons]; rw [ih]; ring
    rw [hcast, hsplit, hzsum, add_zero]
    calc |((zeroFloats.map Prod.snd).map (fun z => ((jsRound z : ℚ) - z))).sum|
        ≤ (((zeroFloats.map Prod.snd).map (fun z => ((jsRound z : ℚ) - z))).map (fun x => |x|)).sum :=
          abs_list_sum_le _
      _ ≤ _ := by
          have hlen : (((zeroFloats.map Prod.snd).map (fun z => ((jsRound z : ℚ) - z))).map (fun x => |x|)).length = deltasFloat.length := by
            simp [hzf]
          have := list_sum_le_length_mul
            (((zeroFloats.map Prod.snd).map (fun z => ((jsRound z : ℚ) - z))).map (fun x => |x|))
            (1 / 2) ?_
          · rw [hlen] at this
            calc _ ≤ (deltasFloat.length : ℚ) * (1 / 2) := this
            _ = n / 2 := by rw [hn_def]; ring
          · intro x hx
            simp only [List.mem_map] at hx
            obtain ⟨y, ⟨z, hz, rfl⟩, rfl⟩ := hx
            exact jsRound_sub_abs_le z
  by_cases hres : -sumValuesZ rounded ≠ 0
  · rw [if_pos hres]
    have hperm := List.perm_insertionSort
      (fun a b : String × ℚ => if 0 < -sumValuesZ rounded then b.2 ≤ a.2 else a.2 ≤ b.2) frac
    set fracSorted := frac.insertionSort
      (fun a b => if 0 < -sumValuesZ rounded then b.2 ≤ a.2 else a.2 ≤ b.2) with hfs
    have hfs_ne : fracSorted ≠ [] := by
      intro hcon
      have : frac = [] := by
        have := hperm.length_eq
        rw [hcon] at this
        exact List.length_eq_zero.mp this.symm
      rw [hfrac] at this
      have : zeroFloats = [] := by
        exact List.map_eq_nil_iff.mp this
      rw [hzf] at this
      exact h (List.map_eq_nil_iff.mp this)
    apply redistLoop_sum fracSorted hfs_ne (fracSorted.length * 3) 0 rounded _
    · omega
    · intro x hx
      have hxf : x ∈ frac := hperm.mem_iff.mp hx
      rw [hfrac] at hxf
      simp only [List.mem_map] at hxf
      obtain ⟨e, he, rfl⟩ := hxf
      rw [hrnd]
      simp only [List.map_map, Function.comp, List.mem_map]
      exact ⟨e, he, rfl⟩
    · have hlen_fs : fracSorted.length = deltasFloat.length := by
        rw [hperm.length_eq, hfrac, List.length_map, hzf, List.length_map]
      have habs : ((-sumValuesZ rounded).natAbs : ℚ) ≤ n / 2 := by
        rw [Int.cast_natAbs]
        push_cast
        rw [abs_neg]
        exact hbound
      have hnat : ((-sumValuesZ rounded).natAbs : ℚ) ≤ ((fracSorted.length * 3 : ℕ) : ℚ) := by
        calc ((-sumValuesZ rounded).natAbs : ℚ) ≤ n / 2 := habs
        _ ≤ ((fracSorted.length * 3 : ℕ) : ℚ) := by
            rw [hn_def]
            push_cast
            rw [hlen_fs]
            linarith
      have := Nat.cast_le (α := ℚ).mp hnat
      omega
    · exact (neg_neg _).symm
  · rw [if_neg hres]
    push_neg at hres
    omega


/-- C1: when no participant is in placement phase (each of the four has
played 6 or more ranked games), the final integer deltas of ranked
settlement sum to exactly 0, for every combination of points, ties and
pre-match ratings. -/
theorem rankedFinalDeltas_zero_sum (ids : List String) (sorted : List (String × ℚ))
    (eloBefore rankedPlayed : String → ℚ) (h4 : sorted.length = 4)
    (hnp : ∀ id ∈ ids, ¬ rankedPlayed id < PLACEMENT_GAMES) :
    sumValuesZ (rankedFinalDeltas ids sorted eloBefore rankedPlayed) = 0 := by
  have hany : ids.any (fun id => decide (rankedPlayed id < PLACEMENT_GAMES)) = false := by
    rw [List.any_eq_false]
    intro id hid
    simpa using hnp id hid
  simp only [rankedFinalDeltas, hany, Bool.false_eq_true, if_false]
  apply normalizeZeroSumAndRound_sum
  intro hcon
  have hlen := congrArg List.length hcon
  simp only [computeScaled, List.length_map, List.length_nil, h4] at hlen
  omega

/-- Witness for C1: four equal-rated out-of-placement participants with
points [5,3,3,2] receive deltas summing to 0. -/
theorem rankedFinalDeltas_zero_sum_witness :
    sumValuesZ (rankedFinalDeltas ["a", "b", "c", "d"]
      [("a", 5), ("b", 3), ("c", 3), ("d", 2)] (fun _ => 1000) (fun _ => 6)) = 0 := by
  exact rankedFinalDeltas_zero_sum _ _ _ _ (by decide)
    (by intro id _; norm_num [PLACEMENT_GAMES])

/-- C3: a participant with fewer than 6 ranked games is in placement phase
and their dampened delta is tripled; with at least one placement
participant the zero-sum normalization is skipped and every scaled delta is
rounded independently.  For ratings [1000,1000,1000,1000], points
[5,3,3,2] and exactly the first-placed participant in placement, the final
deltas are [90, 0, 0, −30], summing to 60. -/
theorem placement_match_not_zero_sum (rankedPlayed : String → ℚ)
    (h1 : rankedPlayed "p1" < PLACEMENT_GAMES)
    (h2 : ¬ rankedPlayed "p2" < PLACEMENT_GAMES)
    (h3 : ¬ rankedPlayed "p3" < PLACEMENT_GAMES)
    (h4 : ¬ rankedPlayed "p4" < PLACEMENT_GAMES) :
    rankedFinalDeltas ["p1", "p2", "p3", "p4"]
      [("p1", 5), ("p2", 3), ("p3", 3), ("p4", 2)] (fun _ => 1000) rankedPlayed =
      [("p1", 90), ("p2", 0), ("p3", 0), ("p4", -30)] ∧
    sumValuesZ (rankedFinalDeltas ["p1", "p2", "p3", "p4"]
      [("p1", 5), ("p2", 3), ("p3", 3), ("p4", 2)] (fun _ => 1000) rankedPlayed) = 60 := by
  have e1 : decide (rankedPlayed "p1" < PLACEMENT_GAMES) = true := decide_eq_true h1
  have e2 : decide (rankedPlayed "p2" < PLACEMENT_GAMES) = false := decide_eq_false h2
  have e3 : decide (rankedPlayed "p3" < PLACEMENT_GAMES) = false := decide_eq_false h3
  have e4 : decide (rankedPlayed "p4" < PLACEMENT_GAMES) = false := decide_eq_false h4
  have hmain : rankedFinalDeltas ["p1", "p2", "p3", "p4"]
      [("p1", 5), ("p2", 3), ("p3", 3), ("p4", 2)] (fun _ => 1000) rankedPlayed =
      [("p1", 90), ("p2", 0), ("p3", 0), ("p4", -30)] := by
    simp only [rankedFinalDeltas, computeScaled, List.map_cons, List.map_nil,
      List.any_cons, List.any_nil, e1, e2, e3, e4, Bool.false_or, Bool.or_false,
      Bool.true_or, if_true]
    simp [computeBaseDeltasByTiesFloat, tiesRun, baseByPlace, lookup_cons_ite,
      List.lookup_nil, applyLobbyMultiplierFloat, clampPct, PLACEMENT_MULT,
      List.filter, List.range, List.range.loop, List.takeWhile, List.dropWhile, List.getD]
    norm_num [jsRound]
  refine ⟨hmain, ?_⟩
  rw [hmain]
  norm_num [sumValuesZ]

/-- Witness for C3: with the first participant at 0 ranked games and the
rest at 6, the deltas are [90, 0, 0, −30] with sum 60. -/
theorem placement_match_not_zero_sum_witness :
    rankedFinalDeltas ["p1", "p2", "p3", "p4"]
      [("p1", 5), ("p2", 3), ("p3", 3), ("p4", 2)] (fun _ => 1000)
      (fun id => if id = "p1" then 0 else 6) =
      [("p1", 90), ("p2", 0), ("p3", 0), ("p4", -30)] ∧
    sumValuesZ (rankedFinalDeltas ["p1", "p2", "p3", "p4"]
      [("p1", 5), ("p2", 3), ("p3", 3), ("p4", 2)] (fun _ => 1000)
      (fun id => if id = "p1" then 0 else 6)) = 60 := by
  exact placement_match_not_zero_sum (fun id => if id = "p1" then 0 else 6)
    (by norm_num [PLACEMENT_GAMES])
    (by show ¬ (if ("p2" : String) = "p1" then (0 : ℚ) else 6) < PLACEMENT_GAMES
        rw [if_neg (by decide)]; norm_num [PLACEMENT_GAMES])
    (by show ¬ (if ("p3" : String) = "p1" then (0 : ℚ) else 6) < PLACEMENT_GAMES
        rw [if_neg (by decide)]; norm_num [PLACEMENT_GAMES])
    (by show ¬ (if ("p4" : String) = "p1" then (0 : ℚ) else 6) < PLACEMENT_GAMES
        rw [if_neg (by decide)]; norm_num [PLACEMENT_GAMES])

/-- Association-list lookup with rational keys on a cons cell. -/
theorem lookup_cons_iteQ (a k : ℚ) (b : ℚ) (l : List (ℚ × ℚ)) :
    List.lookup a ((k, b) :: l) = if a = k then some b else List.lookup a l := by
  rw [List.lookup_cons]
  by_cases h : a = k
  · simp [h]
  · simp [h, beq_false_of_ne h]

/-- When `takeWhile` takes nothing, `dropWhile` drops nothing. -/
theorem takeWhile_nil_dropWhile {α : Type} (p : α → Bool) (l : List α)
    (h : l.takeWhile p = []) : l.dropWhile p = l := by
  cases l with
  | nil => rfl
  | cons a rest =>
    rw [List.takeWhile_cons] at h
    rw [List.dropWhile_cons]
    by_cases hp : p a
    · rw [if_pos hp] at h; exact absurd h (by simp)
    · rw [if_neg hp]

/-- Closed form of the rank sum of a tied run. -/
theorem range_sum_add (r : ℚ) : ∀ n : ℕ,
    (((List.range n).map (fun idx : ℕ => r + (idx : ℚ))).sum) = n * r + (n * (n - 1)) / 2
  | 0 => by simp
  | n + 1 => by
    rw [List.range_succ, List.map_append, List.sum_append, range_sum_add r n]
    push_cast
    simp
    ring

/-- One step of the placement walk, with both branches unified: the run
of entries tied with the head is mapped to the mean of the ranks it
occupies, and the walk continues past the run. -/
theorem placementWalk_cons (fuel : ℕ) (p : ℚ × ℚ) (rest : List (ℚ × ℚ)) (r : ℚ) :
    placementWalk (fuel + 1) (p :: rest) r =
      ((p :: rest.takeWhile (fun q => decide (q.1 = p.1))).map
        (fun q => (q.2, r + ((rest.takeWhile (fun q => decide (q.1 = p.1))).length : ℚ) / 2))) ++
      placementWalk fuel (rest.dropWhile (fun q => decide (q.1 = p.1)))
        (r + (((rest.takeWhile (fun q => decide (q.1 = p.1))).length : ℚ) + 1)) := by
  rw [placementWalk]
  by_cases htc : 1 < (rest.takeWhile (fun q => decide (q.1 = p.1))).length + 1
  · rw [if_pos htc]
    have havg : (((List.range ((rest.takeWhile (fun q => decide (q.1 = p.1))).length + 1)).map
          (fun idx : ℕ => r + (idx : ℚ))).sum) /
            (((rest.takeWhile (fun q => decide (q.1 = p.1))).length + 1 : ℕ) : ℚ) =
        r + ((rest.takeWhile (fun q => decide (q.1 = p.1))).length : ℚ) / 2 := by
      rw [range_sum_add]
      have hpos : (((rest.takeWhile (fun q => decide (q.1 = p.1))).length + 1 : ℕ) : ℚ) ≠ 0 := by
        positivity
      push_cast at hpos ⊢
      field_simp
      ring
    simp only [havg]
    push_cast
    ring_nf
  · rw [if_neg htc]
    have htnil : rest.takeWhile (fun q => decide (q.1 = p.1)) = [] :=
      List.length_eq_zero.mp (by omega)
    rw [htnil, takeWhile_nil_dropWhile _ _ htnil]
    norm_num

/-- In a points-descending list bounded by `c`, everything after the
leading run of entries equal to `c` is strictly below `c`. -/
theorem dropWhile_lt_of_sorted (c : ℚ) :
    ∀ (l : List (ℚ × ℚ)), l.Pairwise (fun a b => b.1 ≤ a.1) →
      (∀ x ∈ l, x.1 ≤ c) →
      ∀ q ∈ l.dropWhile (fun x => decide (x.1 = c)), q.1 < c
  | [], _, _ => by simp
  | x :: xs, hp, hub => by
    rw [List.dropWhile_cons]
    by_cases hx : x.1 = c
    · rw [if_pos (by simpa using hx)]
      exact dropWhile_lt_of_sorted c xs hp.of_cons
        (fun y hy => hub y (List.mem_cons_of_mem _ hy))
    · rw [if_neg (by simpa using hx)]
      intro q hq
      rcases List.mem_cons.mp hq with rfl | hq
      · exact lt_of_le_of_ne (hub q (List.mem_cons_self _ _)) hx
      · have h1 : q.1 ≤ x.1 := (List.pairwise_cons.mp hp).1 q hq
        have h2 : x.1 ≤ c := hub x (List.mem_cons_self _ _)
        exact lt_of_le_of_lt h1 (lt_of_le_of_ne h2 hx)

/-- Lookup in a constant-valued mapped run finds the constant. -/
theorem lookup_map_const (c : ℚ) (k : ℚ) :
    ∀ (l : List (ℚ × ℚ)), k ∈ l.map Prod.snd →
      (l.map (fun q => (q.2, c))).lookup k = some c
  | [], h => by simp at h
  | e :: rest, h => by
    simp only [List.map_cons]
    rw [lookup_cons_iteQ]
    by_cases hk : k = e.2
    · rw [if_pos hk]
    · rw [if_neg hk]
      apply lookup_map_const c k rest
      simp only [List.map_cons, List.mem_cons] at h
      exact h.resolve_left hk

/-- Lookup of an absent key in a constant-valued mapped run fails. -/
theorem lookup_map_const_none (c : ℚ) (k : ℚ) :
    ∀ (l : List (ℚ × ℚ)), k ∉ l.map Prod.snd →
      (l.map (fun q => (q.2, c))).lookup k = none
  | [], _ => by simp
  | e :: rest, h => by
    simp only [List.map_cons, List.mem_cons, not_or] at h
    simp only [List.map_cons]
    rw [lookup_cons_iteQ, if_neg h.1]
    exact lookup_map_const_none c k rest h.2

/-- Lookup distributes over append, first list first. -/
theorem lookup_append_alt (k : ℚ) :
    ∀ (l1 l2 : List (ℚ × ℚ)),
      (l1 ++ l2).lookup k = match l1.lookup k with
        | some v => some v
        | none => l2.lookup k
  | [], l2 => by simp
  | e :: rest, l2 => by
    rw [List.cons_append]
    obtain ⟨a, b⟩ := e
    rw [lookup_cons_iteQ, lookup_cons_iteQ]
    by_cases hk : k = a
    · rw [if_pos hk, if_pos hk]
    · rw [if_neg hk, if_neg hk]
      exact lookup_append_alt k rest l2

/-- The placement walk on a sorted list with distinct placement keys
assigns each entry the mean of the rank positions of its tied run:
`r + (number strictly above) + (ties - 1) / 2`. -/
theorem placementWalk_lookup :
    ∀ (fuel : ℕ) (ss : List (ℚ × ℚ)) (r : ℚ),
      ss.length ≤ fuel →
      ss.Pairwise (fun a b => b.1 ≤ a.1) →
      (ss.map Prod.snd).Nodup →
      ∀ e ∈ ss,
        (placementWalk fuel ss r).lookup e.2 =
          some (r + (ss.countP (fun q => decide (e.1 < q.1)) : ℚ) +
            ((ss.countP (fun q => decide (q.1 = e.1)) : ℚ) - 1) / 2) := by
  intro fuel
  induction fuel with
  | zero =>
    intro ss r hlen _ _ e he
    have hnil : ss = [] := List.length_eq_zero.mp (by omega)
    subst hnil; cases he
  | succ n ih =>
    intro ss r hlen hsort hnd e he
    match ss, hlen, hsort, hnd, he with
    | p :: rest, hlen, hsort, hnd, he =>
    rw [placementWalk_cons]
    set t := rest.takeWhile (fun q => decide (q.1 = p.1)) with ht
    set d := rest.dropWhile (fun q => decide (q.1 = p.1)) with hd
    have hdecomp : rest = t ++ d := (List.takeWhile_append_dropWhile _ rest).symm
    have hub : ∀ x ∈ rest, x.1 ≤ p.1 := (List.pairwise_cons.mp hsort).1
    have hrest_sorted : rest.Pairwise (fun a b => b.1 ≤ a.1) := (List.pairwise_cons.mp hsort).2
    have hrun_eq : ∀ q ∈ p :: t, q.1 = p.1 := by
      intro q hq
      rcases List.mem_cons.mp hq with rfl | hq
      · rfl
      · simpa using List.mem_takeWhile_imp hq
    have hd_lt : ∀ q ∈ d, q.1 < p.1 := dropWhile_lt_of_sorted p.1 rest hrest_sorted hub
    have hsplit : p :: rest = (p :: t) ++ d := by
      rw [List.cons_append]
      congr 1
    have hcount : ∀ pr : (ℚ × ℚ) → Bool,
        (p :: rest).countP pr = (p :: t).countP pr + d.countP pr := by
      intro pr
      conv_lhs => rw [hsplit]
      rw [List.countP_append]
    have hnd_app : ((p :: t).map Prod.snd ++ d.map Prod.snd).Nodup := by
      rw [← List.map_append, ← hsplit]
      exact hnd
    have hdisj : ∀ k, k ∈ (p :: t).map Prod.snd → k ∈ d.map Prod.snd → False := by
      intro k h1 h2
      exact (List.disjoint_of_nodup_append hnd_app) h1 h2
    have hmem2 : e ∈ (p :: t) ++ d := hsplit ▸ he
    rcases List.mem_append.mp hmem2 with hrun | hdm
    · -- e lies in the tied run of the head
      have heq : e.1 = p.1 := hrun_eq e hrun
      have hgt0 : (p :: rest).countP (fun q => decide (e.1 < q.1)) = 0 := by
        rw [List.countP_eq_zero]
        intro q hq
        rcases List.mem_cons.mp hq with rfl | hq
        · simp [heq]
        · have hq1 : q.1 ≤ e.1 := by rw [heq]; exact hub q hq
          simpa using not_lt_of_le hq1
      have heqc : (p :: rest).countP (fun q => decide (q.1 = e.1)) = t.length + 1 := by
        rw [hcount]
        have h1 : (p :: t).countP (fun q => decide (q.1 = e.1)) = (p :: t).length := by
          rw [List.countP_eq_length]
          intro q hq
          simpa [heq] using hrun_eq q hq
        have h2 : d.countP (fun q => decide (q.1 = e.1)) = 0 := by
          rw [List.countP_eq_zero]
          intro q hq
          simpa [heq] using ne_of_lt (hd_lt q hq)
        rw [h1, h2, List.length_cons]
      have hkey : e.2 ∈ (p :: t).map Prod.snd := List.mem_map_of_mem _ hrun
      rw [lookup_append_alt, lookup_map_const _ _ _ hkey]
      rw [hgt0, heqc]
      push_cast
      ring_nf
    · -- e lies strictly below the run
      have hlt : e.1 < p.1 := hd_lt e hdm
      have hkey : e.2 ∉ (p :: t).map Prod.snd := fun hcon =>
        hdisj e.2 hcon (List.mem_map_of_mem _ hdm)
      rw [lookup_append_alt, lookup_map_const_none _ _ _ hkey]
      have hlend : d.length ≤ n := by
        have h1 : rest.length = t.length + d.length := by rw [hdecomp, List.length_append]
        have h2 : (p :: rest).length ≤ n + 1 := hlen
        simp only [List.length_cons] at h2
        omega
      have hsort_d : d.Pairwise (fun a b => b.1 ≤ a.1) :=
        hrest_sorted.sublist (List.dropWhile_sublist _)
      have hnd_d : (d.map Prod.snd).Nodup := by
        have hsub : List.Sublist (d.map Prod.snd) ((p :: rest).map Prod.snd) := by
          apply List.Sublist.map
          exact (List.dropWhile_sublist _).trans (List.sublist_cons_self _ _)
        exact hnd.sublist hsub
      rw [ih d (r + ((t.length : ℚ) + 1)) hlend hsort_d hnd_d e hdm]
      have hgtc : (p :: rest).countP (fun q => decide (e.1 < q.1)) =
          (t.length + 1) + d.countP (fun q => decide (e.1 < q.1)) := by
        rw [hcount]
        have h1 : (p :: t).countP (fun q => decide (e.1 < q.1)) = (p :: t).length := by
          rw [List.countP_eq_length]
          intro q hq
          simpa using lt_of_lt_of_le hlt (le_of_eq (hrun_eq q hq).symm)
        rw [h1, List.length_cons]
      have heqc : (p :: rest).countP (fun q => decide (q.1 = e.1)) =
          d.countP (fun q => decide (q.1 = e.1)) := by
        rw [hcount]
        have h1 : (p :: t).countP (fun q => decide (q.1 = e.1)) = 0 := by
          rw [List.countP_eq_zero]
          intro q hq
          have := hrun_eq q hq
          simpa [this] using ne_of_gt hlt
        rw [h1, Nat.zero_add]
      rw [hgtc, heqc]
      push_cast
      ring_nf

/-- C2 (amended): the display-side `calculateActualPlacement` assigns
every entry the tie-averaged rank: one more than the number of strictly
higher scores plus half of (number of equal scores + 1), i.e. the
arithmetic mean of the rank positions its tied run occupies. -/
theorem calculateActualPlacement_tie_mean (players : List (ℚ × ℚ))
    (hnd : (players.map Prod.snd).Nodup) (e : ℚ × ℚ) (he : e ∈ players) :
    (calculateActualPlacement players).lookup e.2 =
      some ((players.countP (fun q => decide (e.1 < q.1)) : ℚ) +
        ((players.countP (fun q => decide (q.1 = e.1)) : ℚ) + 1) / 2) := by
  unfold calculateActualPlacement
  haveI h1 : IsTotal (ℚ × ℚ) (fun a b => b.1 ≤ a.1) := ⟨fun a b => le_total b.1 a.1⟩
  haveI h2 : IsTrans (ℚ × ℚ) (fun a b => b.1 ≤ a.1) := ⟨fun _ _ _ hab hbc => le_trans hbc hab⟩
  have hperm := List.perm_insertionSort (fun a b : ℚ × ℚ => b.1 ≤ a.1) players
  have hsorted := List.sorted_insertionSort (fun a b : ℚ × ℚ => b.1 ≤ a.1) players
  have hlen := hperm.length_eq
  have hnd2 : ((players.insertionSort (fun a b => b.1 ≤ a.1)).map Prod.snd).Nodup :=
    ((hperm.map Prod.snd).nodup_iff).mpr hnd
  have hme : e ∈ players.insertionSort (fun a b => b.1 ≤ a.1) := hperm.mem_iff.mpr he
  rw [placementWalk_lookup players.length _ 1 (le_of_eq hlen) hsorted hnd2 e hme]
  rw [hperm.countP_eq, hperm.countP_eq]
  congr 1
  ring


/-- Witness for C2's amended claim: for scores [5,5,3,2] the entry with
original placement 1 receives the tie-averaged placement 1.5. -/
theorem calculateActualPlacement_tie_mean_witness :
    (calculateActualPlacement [(5, 1), (5, 2), (3, 3), (2, 4)]).lookup 1 = some (3 / 2) := by
  have h := calculateActualPlacement_tie_mean [(5, 1), (5, 2), (3, 3), (2, 4)]
    (by norm_num) (5, 1) (by norm_num)
  rw [h]
  norm_num [List.countP, List.countP.go]

/-- Counterexample for C2: the per-match placement persisted by settlement
(`resultsRows`, both endpoint variants) for scores [5,5,3,2] is the plain
sort index [1,2,3,4], not the tie-averaged [1.5, 1.5, 3, 4]. -/
theorem settlement_placement_not_tie_averaged :
    (settlementResultPlacements (sortByPointsDesc
      [("p1", 5), ("p2", 5), ("p3", 3), ("p4", 2)])).map Prod.snd = [1, 2, 3, 4] ∧
    (settlementResultPlacements (sortByPointsDesc
      [("p1", 5), ("p2", 5), ("p3", 3), ("p4", 2)])).map Prod.snd ≠
      [3 / 2, 3 / 2, 3, 4] := by
  have h : (settlementResultPlacements (sortByPointsDesc
      [("p1", 5), ("p2", 5), ("p3", 3), ("p4", 2)])).map Prod.snd = [1, 2, 3, 4] := by
    norm_num [settlementResultPlacements, sortByPointsDesc, List.insertionSort,
      List.orderedInsert, List.enum, List.enumFrom]
  refine ⟨h, ?_⟩
  rw [h]
  norm_num


/-- Counterexample for C10: variant A rejects a report that carries no
rounds array (the totals-only shape) with "missing fields"; nothing is
persisted and the report is not accepted. -/
theorem postA_rejects_totals_only_report :
    POST_A (some "secret") (some "secret") 0 totalsOnlyReportA emptyDb =
      (emptyDb, respErr 400 "missing fields") := by rfl

/-- Counterexample for C9: a ranked report for four brand-new participants
is fatally rejected by the qualification gate, yet the player upsert has
already inserted four player rows — state DID change. -/
theorem postA_qual_failure_upserts_players :
    (POST_A (some "secret") (some "secret") 0 freshRankedReport emptyDb).2 =
      respErr 400 "player_not_qualified_for_ranked:p1" ∧
    (POST_A (some "secret") (some "secret") 0 freshRankedReport emptyDb).1.players ≠ [] := by
  constructor
  · rfl
  · have hlen : (POST_A (some "secret") (some "secret") 0
        freshRankedReport emptyDb).1.players.length = 4 := rfl
    intro h
    rw [h] at hlen
    simp at hlen

/-- Counterexample for C8: variant B's `insertViolationAndReturnPenalty`
overwrites a pending suspension-until of 1000000000000 ms with the new
penalty end 1800000 ms — recording a violation moved the stored
suspension-until timestamp earlier. -/
theorem postB_penalty_shortens_pending_ban :
    ((insertViolationAndReturnPenalty dbLongBan 0 "g" "p" "afk" 1).1.players.lookup "p").bind
      (fun r => r.banned_until) = some 1800000 ∧
    (dbLongBan.players.lookup "p").bind (fun r => r.banned_until) = some 1000000000000 ∧
    (1800000 : ℚ) < 1000000000000 := by
  refine ⟨?_, rfl, by norm_num⟩
  norm_num [insertViolationAndReturnPenalty, dbLongBan, penaltyMsForCount, setPlayerRow,
    emptyPlayerRow, lookup_cons_ite, List.lookup_nil, List.filter]

set_option maxHeartbeats 2000000 in
/-- Counterexample for C7: in variant B a ranked report carrying a
violation by the first-placed participant "p1" is still settled through
the full Elo pipeline — the persisted deltas are the zero-sum ones
[30, 0, 0, −30] (p1 gains 30 instead of the claimed −30, p4 loses 30
instead of the claimed 0) even though the match is flagged aborted. -/
theorem postB_violation_still_settles_elo :
    (POST_B (some "secret") (some "secret") 0 violationReportB dbQualified).1.match_results.map
      (fun r => (r.discord_id, r.elo_delta)) = [("p1", 30), ("p2", 0), ("p3", 0), ("p4", -30)] ∧
    (POST_B (some "secret") (some "secret") 0 violationReportB dbQualified).2.aborted = some true := by
  have h0 : POST_B (some "secret") (some "secret") 0 violationReportB dbQualified =
      settleB 0 violationReportB
        [playerB "p1" 5, playerB "p2" 3, playerB "p3" 3, playerB "p4" 2] dbQualified := rfl
  rw [h0]
  have ne12 : ("p1" : String) ≠ "p2" := by decide
  have ne13 : ("p1" : String) ≠ "p3" := by decide
  have ne14 : ("p1" : String) ≠ "p4" := by decide
  have ne21 : ("p2" : String) ≠ "p1" := by decide
  have ne23 : ("p2" : String) ≠ "p3" := by decide
  have ne24 : ("p2" : String) ≠ "p4" := by decide
  have ne31 : ("p3" : String) ≠ "p1" := by decide
  have ne32 : ("p3" : String) ≠ "p2" := by decide
  have ne34 : ("p3" : String) ≠ "p4" := by decide
  have ne41 : ("p4" : String) ≠ "p1" := by decide
  have ne42 : ("p4" : String) ≠ "p2" := by decide
  have ne43 : ("p4" : String) ≠ "p3" := by decide
  constructor
  · simp [ne12, ne13, ne14, ne21, ne23, ne24, ne31, ne32, ne34, ne41, ne42, ne43, settleB, violationReportB, dbQualified, qualifiedRow, emptyPlayerRow, playerB,
      normalizeMode, upsertAllB, upsertPlayerName, setPlayerRow, playerQ, lookup_cons_ite,
      List.lookup_nil, insertViolationAndReturnPenalty, penaltyMsForCount, List.filter,
      truthyStr, sortByPointsDesc, List.insertionSort, List.orderedInsert,
      rankedFinalDeltas, computeScaled, computeBaseDeltasByTiesFloat, tiesRun, baseByPlace,
      applyLobbyMultiplierFloat, clampPct, normalizeZeroSumAndRound, redistLoop, setAddInt,
      sumValuesQ, sumValuesZ, jsRound, List.enum, List.enumFrom, List.getD,
      List.takeWhile, List.dropWhile, List.range, List.range.loop,
      PLACEMENT_GAMES, PLACEMENT_MULT, ELO_FLOOR, CASUAL_REQUIRED_FOR_RANKED]
    norm_num [ne12, ne13, ne14, ne21, ne23, ne24, ne31, ne32, ne34, ne41, ne42, ne43, Function.comp, lookup_cons_ite, List.lookup_nil, setAddInt,
      sumValuesZ, jsRound]
  · rfl


/-- C9 (amended): every fatal rejection of variant A — unauthorized
caller, malformed/missing fields, unrecognized mode, wrong participant or
round count — leaves the store unchanged; a ranked-qualification failure
creates no match, round, result or violation rows either, but the player
upsert (display name, updated_at) has by then already been applied, so
player rows may be inserted or updated. -/
theorem postA_rejection_no_settlement (envToken token : Option String) (now : ℚ) (body : PayloadA) (db : Db) :
    (authFailed envToken token = true →
      POST_A envToken token now body db = (db, respErr 401 "unauthorized")) ∧
    (authFailed envToken token = false →
      (body.guild_id = "" ∨ body.mode = "" ∨ body.players = none ∨ body.rounds = none) →
      POST_A envToken token now body db = (db, respErr 400 "missing fields")) ∧
    (authFailed envToken token = false →
      ¬(body.guild_id = "" ∨ body.mode = "" ∨ body.players = none ∨ body.rounds = none) →
      body.mode ≠ "ranked" ∧ body.mode ≠ "zwanglos" →
      POST_A envToken token now body db = (db, respErr 400 "mode must be ranked|zwanglos")) ∧
    (authFailed envToken token = false →
      ¬(body.guild_id = "" ∨ body.mode = "" ∨ body.players = none ∨ body.rounds = none) →
      ¬(body.mode ≠ "ranked" ∧ body.mode ≠ "zwanglos") →
      (body.players.getD []).length ≠ 4 →
      POST_A envToken token now body db = (db, respErr 400 "expected 4 players")) ∧
    (authFailed envToken token = false →
      ¬(body.guild_id = "" ∨ body.mode = "" ∨ body.players = none ∨ body.rounds = none) →
      ¬(body.mode ≠ "ranked" ∧ body.mode ≠ "zwanglos") →
      (body.players.getD []).length = 4 →
      (body.rounds.getD []).length ≠ 5 →
      POST_A envToken token now body db = (db, respErr 400 "expected 5 rounds")) ∧
    (∀ (players : List PlayerInA) (badId : String),
      authFailed envToken token = false →
      body.guild_id ≠ "" → body.mode = "ranked" →
      body.players = some players → body.rounds ≠ none →
      players.length = 4 → (body.rounds.getD []).length = 5 →
      (players.map (fun p => p.discord_id)).find?
        (fun id => decide (playerQ (upsertAllA db players now) id (fun r => r.games_casual) 0 <
          CASUAL_REQUIRED_FOR_RANKED)) = some badId →
      POST_A envToken token now body db =
        ({ db with players := upsertAllA db players now },
         respErr 400 ("player_not_qualified_for_ranked:" ++ badId))) := by
  refine ⟨?_, ?_, ?_, ?_, ?_, ?_⟩
  · intro h
    rw [POST_A, if_pos h]
  · intro ha hm
    rw [POST_A, if_neg (by simp [ha]), if_pos hm]
  · intro ha hm hmode
    rw [POST_A, if_neg (by simp [ha]), if_neg hm]
    simp only [if_pos hmode]
  · intro ha hm hmode hlen
    rw [POST_A, if_neg (by simp [ha]), if_neg hm, if_neg hmode, if_pos hlen]
  · intro ha hm hmode hlen hrlen
    rw [POST_A, if_neg (by simp [ha]), if_neg hm, if_neg hmode, if_neg (by simp [hlen]),
      if_pos hrlen]
  · intro players badId ha hg hmode hp hr hlen hrlen hfind
    rw [POST_A, if_neg (by simp [ha])]
    rw [if_neg (by simp [ha, hg, hmode, hp, hr])]
    rw [if_neg (by simp [hmode]), if_neg (by simp [hp, hlen]), if_neg (by simp [hrlen])]
    rw [hp]
    simp only [Option.getD_some, settleA, hmode, if_pos, reduceIte]
    rw [hfind]


/-- Witness for C9's amended claim: a ranked report for four unknown
participants is rejected by the gate while the four upserted player rows
remain. -/
theorem postA_rejection_no_settlement_witness :
    POST_A (some "secret") (some "secret") 0 freshRankedReport emptyDb =
      ({ emptyDb with players := upsertAllA emptyDb [playerA "p1", playerA "p2", playerA "p3", playerA "p4"] 0 },
       respErr 400 "player_not_qualified_for_ranked:p1") := by
  exact (postA_rejection_no_settlement (some "secret") (some "secret") 0
      freshRankedReport emptyDb).2.2.2.2.2
    [playerA "p1", playerA "p2", playerA "p3", playerA "p4"] "p1"
    rfl (by decide) rfl rfl (by decide) rfl rfl rfl

theorem roundData_insertedA (rounds : List RoundInA) (mid base : ℕ) :
    (insertedRoundsA mid base rounds).map
      (fun r => RoundData.mk r.imposter_discord_id r.winner r.aborted) = roundDataOfA rounds := by
  rw [insertedRoundsA, List.map_map, roundDataOfA]
  conv_rhs => rw [← List.enum_map_snd rounds]
  rw [List.map_map]
  rfl

theorem postA_to_violationBranch (envToken token : Option String) (now : ℚ)
    (body : PayloadA) (db : Db) (players : List PlayerInA) (rounds : List RoundInA)
    (viol : ViolationIn)
    (ha : authFailed envToken token = false)
    (hg : body.guild_id ≠ "")
    (hmode : body.mode = "ranked" ∨ body.mode = "zwanglos")
    (hp : body.players = some players) (hr : body.rounds = some rounds)
    (hlen : players.length = 4) (hrlen : rounds.length = 5)
    (hviol : body.violation = some viol)
    (hgate : body.mode = "ranked" →
      (players.map (fun p => p.discord_id)).find?
        (fun id => decide (playerQ (upsertAllA db players now) id (fun r => r.games_casual) 0 <
          CASUAL_REQUIRED_FOR_RANKED)) = none) :
    POST_A envToken token now body db =
      violationBranchA now body.guild_id body.mode (db.matches'.length + 1)
        (players.map (fun p => p.discord_id))
        (computePoints (players.map (fun p => p.discord_id)) (roundDataOfA rounds))
        (upsertAllA db players now)
        (insertedRoundsA (db.matches'.length + 1) db.match_rounds.length rounds)
        viol
        (Db.mk (upsertAllA db players now)
          (db.matches' ++ [MatchRow.mk (db.matches'.length + 1) body.guild_id body.mode
            (some (body.started_at.getD now)) body.ended_at
            (some ("violation:" ++ viol.type))])
          (db.match_rounds ++
            insertedRoundsA (db.matches'.length + 1) db.match_rounds.length rounds)
          (db.round_player_points ++ rppRowsOf (players.map (fun p => p.discord_id))
            (insertedRoundsA (db.matches'.length + 1) db.match_rounds.length rounds))
          db.match_results db.player_violations) := by
  have hmne : ¬(body.mode ≠ "ranked" ∧ body.mode ≠ "zwanglos") := by
    rcases hmode with h | h <;> simp [h]
  have hm0 : body.mode ≠ "" := by rcases hmode with h | h <;> simp [h]
  rw [POST_A, if_neg (by simp [ha]), if_neg (by simp [ha, hg, hm0, hp, hr]), if_neg hmne,
    hp, hr]
  simp only [Option.getD_some]
  rw [if_neg (by simp [hlen]), if_neg (by simp [hrlen])]
  simp only [settleA]
  have hgate2 : (if body.mode = "ranked" then
      (players.map (fun p => p.discord_id)).find?
        (fun id => decide (playerQ (upsertAllA db players now) id (fun r => r.games_casual) 0 <
          CASUAL_REQUIRED_FOR_RANKED)) else none) = none := by
    by_cases h : body.mode = "ranked"
    · rw [if_pos h]; exact hgate h
    · rw [if_neg h]
  rw [hgate2, hviol, roundData_insertedA]
  rfl

theorem lookup_setPlayerRow (l : List (String × PlayerRow)) (id k : String) (f : PlayerRow → PlayerRow) :
    (setPlayerRow l id f).lookup k = if k = id then (l.lookup k).map f else l.lookup k := by
  induction l with
  | nil => simp only [setPlayerRow, List.lookup_nil, Option.map_none']; split <;> rfl
  | cons e rest ih =>
    obtain ⟨a, b⟩ := e
    simp only [setPlayerRow]
    by_cases hak : a = id
    · rw [if_pos hak, lookup_cons_ite, lookup_cons_ite]
      by_cases hk : k = a
      · subst hak hk; simp
      · simp [hk, hak ▸ hk]
    · rw [if_neg hak, lookup_cons_ite, lookup_cons_ite]
      by_cases hk : k = a
      · subst hk
        simp [hak]
      · rw [if_neg hk, if_neg hk, ih]

theorem lookup_append_gen {β : Type} (k : String) :
    ∀ (l1 l2 : List (String × β)),
      (l1 ++ l2).lookup k = match l1.lookup k with
        | some v => some v
        | none => l2.lookup k
  | [], l2 => by simp
  | e :: rest, l2 => by
    rw [List.cons_append]
    obtain ⟨a, b⟩ := e
    rw [lookup_cons_ite, lookup_cons_ite]
    by_cases hk : k = a
    · rw [if_pos hk, if_pos hk]
    · rw [if_neg hk, if_neg hk]
      exact lookup_append_gen k rest l2

theorem lookup_append_self (id : String) (row : PlayerRow) (l : List (String × PlayerRow)) :
    ((l ++ [(id, row)]).lookup id).isSome = true := by
  induction l with
  | nil => simp [lookup_cons_ite]
  | cons e rest ih =>
    obtain ⟨a, b⟩ := e
    rw [List.cons_append, lookup_cons_ite]
    by_cases hk : id = a
    · rw [if_pos hk]; rfl
    · rw [if_neg hk]; exact ih

theorem upsertPlayerName_self_isSome (l : List (String × PlayerRow)) (id : String)
    (nm : Option String) (t : ℚ) : ((upsertPlayerName l id nm t).lookup id).isSome = true := by
  rw [upsertPlayerName]
  by_cases h : (l.lookup id).isSome
  · rw [if_pos h, lookup_setPlayerRow, if_pos rfl]
    cases hx : l.lookup id with
    | none => rw [hx] at h; simp at h
    | some v => rfl
  · rw [if_neg h]
    exact lookup_append_self _ _ _

theorem upsertPlayerName_mono (l : List (String × PlayerRow)) (k id : String)
    (nm : Option String) (t : ℚ) (h : (l.lookup id).isSome = true) :
    ((upsertPlayerName l k nm t).lookup id).isSome = true := by
  rw [upsertPlayerName]
  by_cases hks : (l.lookup k).isSome
  · rw [if_pos hks, lookup_setPlayerRow]
    by_cases hk : id = k
    · rw [if_pos hk]
      subst hk
      cases hx : l.lookup id with
      | none => rw [hx] at h; simp at h
      | some v => rfl
    · rw [if_neg hk]; exact h
  · rw [if_neg hks, lookup_append_gen]
    cases hx : l.lookup id with
    | none => rw [hx] at h; simp at h
    | some v => rfl

theorem upsertAllA_isSome (db : Db) (players : List PlayerInA) (now : ℚ) (id : String)
    (hid : id ∈ players.map (fun p => p.discord_id)) :
    ((upsertAllA db players now).lookup id).isSome = true := by
  rw [upsertAllA]
  suffices h : ∀ (ps : List PlayerInA) (acc : List (String × PlayerRow)),
      (id ∈ ps.map (fun p => p.discord_id) ∨ (acc.lookup id).isSome = true) →
      ((ps.foldl (fun acc p => upsertPlayerName acc p.discord_id p.display_name now)
        acc).lookup id).isSome = true by
    exact h players db.players (Or.inl hid)
  intro ps
  induction ps with
  | nil =>
    intro acc h
    rcases h with h | h
    · simp at h
    · exact h
  | cons p rest ih =>
    intro acc h
    simp only [List.foldl_cons]
    apply ih
    rcases h with h | h
    · simp only [List.map_cons, List.mem_cons] at h
      rcases h with rfl | h
      · exact Or.inr (upsertPlayerName_self_isSome _ _ _ _)
      · exact Or.inl h
    · exact Or.inr (upsertPlayerName_mono _ _ _ _ _ h)

theorem violationBranchA_ranked (now : ℚ) (g : String) (mid : ℕ) (ids : List String)
    (points : List (String × ℚ)) (byId : List (String × PlayerRow))
    (ir : List RoundRow) (viol : ViolationIn) (db : Db) :
    violationBranchA now g "ranked" mid ids points byId ir viol db =
    ({ players := setPlayerRow
         (setPlayerRow db.players viol.discord_id (fun r =>
           { r with violations_count :=
                      some (playerQ byId viol.discord_id (fun q => q.violations_count) 0 + 1),
                    banned_until := some (finalBanA
                      ((byId.lookup viol.discord_id).bind (fun q => q.banned_until))
                      (now + banMinutesForViolationCount
                        (playerQ byId viol.discord_id (fun q => q.violations_count) 0 + 1) * 60000)),
                    last_violation_at := some now }))
         viol.discord_id (fun r =>
           { r with elo_ranked := some (max ELO_FLOOR
                      (playerQ byId viol.discord_id (fun q => q.elo_ranked) 1000 - 30)),
                    updated_at := some now }),
       matches' := db.matches'.map (fun m =>
         if m.id = mid then { m with aborted_reason := some ("violation:" ++ viol.type) } else m),
       match_rounds := db.match_rounds,
       round_player_points := db.round_player_points,
       match_results := db.match_results ++ ids.map (fun id =>
         ResultRow.mk mid id ((points.lookup id).getD 0) 0 (if id = viol.discord_id then -30 else 0)),
       player_violations := db.player_violations ++
         [ViolationRow.mk g viol.discord_id viol.type "system" mid
           (match viol.round_no with
            | some rn => if rn = 0 then none
                         else (ir.find? (fun r => decide (r.round_no = rn))).map (fun r => r.id)
            | none => none)
           (some now)] },
     respOkAbort mid) := by
  simp only [violationBranchA]
  rw [if_true]

theorem violationBranchA_casual (now : ℚ) (g mode : String) (mid : ℕ) (ids : List String)
    (points : List (String × ℚ)) (byId : List (String × PlayerRow))
    (ir : List RoundRow) (viol : ViolationIn) (db : Db) (hm : mode ≠ "ranked") :
    violationBranchA now g mode mid ids points byId ir viol db =
    ({ players := setPlayerRow db.players viol.discord_id (fun r =>
           { r with violations_count :=
                      some (playerQ byId viol.discord_id (fun q => q.violations_count) 0 + 1),
                    banned_until := some (finalBanA
                      ((byId.lookup viol.discord_id).bind (fun q => q.banned_until))
                      (now + banMinutesForViolationCount
                        (playerQ byId viol.discord_id (fun q => q.violations_count) 0 + 1) * 60000)),
                    last_violation_at := some now }),
       matches' := db.matches'.map (fun m =>
         if m.id = mid then { m with aborted_reason := some ("violation:" ++ viol.type) } else m),
       match_rounds := db.match_rounds,
       round_player_points := db.round_player_points,
       match_results := db.match_results ++ ids.map (fun id =>
         ResultRow.mk mid id ((points.lookup id).getD 0) 0 0),
       player_violations := db.player_violations ++
         [ViolationRow.mk g viol.discord_id viol.type "system" mid
           (match viol.round_no with
            | some rn => if rn = 0 then none
                         else (ir.find? (fun r => decide (r.round_no = rn))).map (fun r => r.id)
            | none => none)
           (some now)] },
     respOkAbort mid) := by
  simp only [violationBranchA]
  rw [if_neg hm]

/-- C7 (amended to variant A, `src/app/api/match/route.ts`): a validated
report carrying a violation short-circuits settlement with an abort
response; the match row for the new match id carries
`aborted_reason = "violation:" ++ type`; for a ranked report the persisted
`match_results` rows give the violator `elo_delta = -30` and every other
participant `0` (no `rankedFinalDeltas` rows), and the violator's stored
rating becomes `max ELO_FLOOR (old - 30)`; for a casual (`zwanglos`)
report every participant's `elo_delta` is `0`.  (The unnamed variant B
copy instead keeps settling Elo after recording a violation — see the
counterexample.) -/
theorem postA_violation_aborts_settlement (envToken token : Option String) (now : ℚ)
    (body : PayloadA) (db : Db) (players : List PlayerInA) (rounds : List RoundInA)
    (viol : ViolationIn)
    (ha : authFailed envToken token = false) (hg : body.guild_id ≠ "")
    (hmode : body.mode = "ranked" ∨ body.mode = "zwanglos")
    (hp : body.players = some players) (hr : body.rounds = some rounds)
    (hlen : players.length = 4) (hrlen : rounds.length = 5)
    (hviol : body.violation = some viol)
    (hmem : viol.discord_id ∈ players.map (fun p => p.discord_id))
    (hgate : body.mode = "ranked" → (players.map (fun p => p.discord_id)).find?
        (fun id => decide (playerQ (upsertAllA db players now) id (fun r => r.games_casual) 0 <
          CASUAL_REQUIRED_FOR_RANKED)) = none) :
    (POST_A envToken token now body db).2 = respOkAbort (db.matches'.length + 1) ∧
    (∃ m ∈ (POST_A envToken token now body db).1.matches',
      m.id = db.matches'.length + 1 ∧ m.aborted_reason = some ("violation:" ++ viol.type)) ∧
    (body.mode = "ranked" →
      (POST_A envToken token now body db).1.match_results =
        db.match_results ++ (players.map (fun p => p.discord_id)).map (fun id =>
          ResultRow.mk (db.matches'.length + 1) id
            (((computePoints (players.map (fun p => p.discord_id))
                (roundDataOfA rounds)).lookup id).getD 0) 0
            (if id = viol.discord_id then -30 else 0)) ∧
      ((POST_A envToken token now body db).1.players.lookup viol.discord_id).bind
          (fun r => r.elo_ranked) =
        some (max ELO_FLOOR
          (playerQ (upsertAllA db players now) viol.discord_id (fun r => r.elo_ranked) 1000 - 30))) ∧
    (body.mode = "zwanglos" →
      (POST_A envToken token now body db).1.match_results =
        db.match_results ++ (players.map (fun p => p.discord_id)).map (fun id =>
          ResultRow.mk (db.matches'.length + 1) id
            (((computePoints (players.map (fun p => p.discord_id))
                (roundDataOfA rounds)).lookup id).getD 0) 0 0)) := by
  rw [postA_to_violationBranch envToken token now body db players rounds viol ha hg hmode hp hr
    hlen hrlen hviol hgate]
  obtain ⟨row, hrow⟩ := Option.isSome_iff_exists.mp (upsertAllA_isSome db players now
    viol.discord_id hmem)
  rcases hmode with hm | hm
  · rw [hm, violationBranchA_ranked]
    refine ⟨rfl, ?_, ?_, ?_⟩
    · refine ⟨_, List.mem_map_of_mem _ (List.mem_append_right _ (List.mem_singleton_self _)), ?_⟩
      simp
    · intro _
      refine ⟨rfl, ?_⟩
      rw [lookup_setPlayerRow, if_pos rfl, lookup_setPlayerRow, if_pos rfl, hrow]
      rfl
    · intro hz
      exact absurd hz (by decide)
  · rw [hm, violationBranchA_casual _ _ _ _ _ _ _ _ _ _ (by decide)]
    refine ⟨rfl, ?_, ?_, ?_⟩
    · refine ⟨_, List.mem_map_of_mem _ (List.mem_append_right _ (List.mem_singleton_self _)), ?_⟩
      simp
    · intro hz
      exact absurd hz (by decide)
    · intro _
      rfl

/-- Witness for `postA_violation_aborts_settlement`: the concrete ranked
violation report against the four-qualified-players database. -/
theorem postA_violation_aborts_settlement_witness :
    ("p2" ∈ ([playerA "p1", playerA "p2", playerA "p3", playerA "p4"].map
      (fun p => p.discord_id))) ∧
    ((POST_A (some "t") (some "t") 0 violationReportA dbQualified).2 = respOkAbort 1 ∧
     (∃ m ∈ (POST_A (some "t") (some "t") 0 violationReportA dbQualified).1.matches',
       m.id = 1 ∧ m.aborted_reason = some ("violation:" ++ "afk")) ∧
     (violationReportA.mode = "ranked" →
       (POST_A (some "t") (some "t") 0 violationReportA dbQualified).1.match_results =
         dbQualified.match_results ++
           (([playerA "p1", playerA "p2", playerA "p3", playerA "p4"].map
             (fun p => p.discord_id)).map (fun id =>
             ResultRow.mk 1 id
               (((computePoints ([playerA "p1", playerA "p2", playerA "p3", playerA "p4"].map
                   (fun p => p.discord_id))
                   (roundDataOfA [roundA 1 "p1", roundA 2 "p2", roundA 3 "p3", roundA 4 "p4",
                     roundA 5 "p1"])).lookup id).getD 0) 0
               (if id = "p2" then -30 else 0))) ∧
       ((POST_A (some "t") (some "t") 0 violationReportA dbQualified).1.players.lookup "p2").bind
           (fun r => r.elo_ranked) =
         some (max ELO_FLOOR
           (playerQ (upsertAllA dbQualified
               [playerA "p1", playerA "p2", playerA "p3", playerA "p4"] 0) "p2"
             (fun r => r.elo_ranked) 1000 - 30))) ∧
     (violationReportA.mode = "zwanglos" →
       (POST_A (some "t") (some "t") 0 violationReportA dbQualified).1.match_results =
         dbQualified.match_results ++
           (([playerA "p1", playerA "p2", playerA "p3", playerA "p4"].map
             (fun p => p.discord_id)).map (fun id =>
             ResultRow.mk 1 id
               (((computePoints ([playerA "p1", playerA "p2", playerA "p3", playerA "p4"].map
                   (fun p => p.discord_id))
                   (roundDataOfA [roundA 1 "p1", roundA 2 "p2", roundA 3 "p3", roundA 4 "p4",
                     roundA 5 "p1"])).lookup id).getD 0) 0 0)))) :=
  ⟨by decide,
   postA_violation_aborts_settlement (some "t") (some "t") 0 violationReportA dbQualified
     [playerA "p1", playerA "p2", playerA "p3", playerA "p4"]
     [roundA 1 "p1", roundA 2 "p2", roundA 3 "p3", roundA 4 "p4", roundA 5 "p1"]
     ⟨"afk", "p2", none⟩ rfl (by decide) (Or.inl rfl) rfl rfl rfl rfl rfl (by decide)
     (fun _ => rfl)⟩

theorem upsertPlayerName_field (l : List (String × PlayerRow)) (k id : String)
    (nm : Option String) (t : ℚ) (f : PlayerRow → Option ℚ)
    (hf : ∀ r nm t, f { r with last_name := nm, updated_at := some t } = f r)
    (hf0 : ∀ nm t, f { emptyPlayerRow with last_name := nm, updated_at := some t } = none) :
    ((upsertPlayerName l k nm t).lookup id).bind f = (l.lookup id).bind f := by
  rw [upsertPlayerName]
  by_cases hks : (l.lookup k).isSome
  · rw [if_pos hks, lookup_setPlayerRow]
    by_cases hk : id = k
    · rw [if_pos hk]
      subst hk
      cases hx : l.lookup id with
      | none => rfl
      | some v => simp [hf]
    · rw [if_neg hk]
  · rw [if_neg hks, lookup_append_gen]
    cases hx : l.lookup id with
    | none =>
      simp only []
      rw [lookup_cons_ite]
      by_cases hk : id = k
      · rw [if_pos hk]
        simp [hf0]
      · rw [if_neg hk]
        rfl
    | some v => rfl

theorem upsertAllA_field (db : Db) (players : List PlayerInA) (now : ℚ) (id : String)
    (f : PlayerRow → Option ℚ)
    (hf : ∀ r nm t, f { r with last_name := nm, updated_at := some t } = f r)
    (hf0 : ∀ nm t, f { emptyPlayerRow with last_name := nm, updated_at := some t } = none) :
    ((upsertAllA db players now).lookup id).bind f = (db.players.lookup id).bind f := by
  rw [upsertAllA]
  suffices h : ∀ (ps : List PlayerInA) (acc : List (String × PlayerRow)),
      ((ps.foldl (fun acc p => upsertPlayerName acc p.discord_id p.display_name now)
        acc).lookup id).bind f = (acc.lookup id).bind f by
    exact h players db.players
  intro ps
  induction ps with
  | nil => intro acc; rfl
  | cons p rest ih =>
    intro acc
    simp only [List.foldl_cons]
    rw [ih, upsertPlayerName_field _ _ _ _ _ f hf hf0]

/-- C8 (amended to variant A, `src/app/api/match/route.ts`): after a
validated violation report, the violator's stored `banned_until` equals
`finalBanA prev (now + minutes * 60000)` — the later of the previously
pending suspension end and the newly escalated one — and that value is
never earlier than any previously pending suspension end.  (The unnamed
variant B copy overwrites `banned_until` unconditionally and can shorten
a pending suspension — see the counterexample.) -/
theorem postA_violation_never_shortens_ban (envToken token : Option String) (now : ℚ)
    (body : PayloadA) (db : Db) (players : List PlayerInA) (rounds : List RoundInA)
    (viol : ViolationIn)
    (ha : authFailed envToken token = false) (hg : body.guild_id ≠ "")
    (hmode : body.mode = "ranked" ∨ body.mode = "zwanglos")
    (hp : body.players = some players) (hr : body.rounds = some rounds)
    (hlen : players.length = 4) (hrlen : rounds.length = 5)
    (hviol : body.violation = some viol)
    (hmem : viol.discord_id ∈ players.map (fun p => p.discord_id))
    (hgate : body.mode = "ranked" → (players.map (fun p => p.discord_id)).find?
        (fun id => decide (playerQ (upsertAllA db players now) id (fun r => r.games_casual) 0 <
          CASUAL_REQUIRED_FOR_RANKED)) = none) :
    ((POST_A envToken token now body db).1.players.lookup viol.discord_id).bind
        (fun r => r.banned_until) =
      some (finalBanA ((db.players.lookup viol.discord_id).bind (fun r => r.banned_until))
        (now + banMinutesForViolationCount
          (((db.players.lookup viol.discord_id).bind (fun r => r.violations_count)).getD 0 + 1)
          * 60000)) ∧
    (∀ c, (db.players.lookup viol.discord_id).bind (fun r => r.banned_until) = some c →
      c ≤ finalBanA ((db.players.lookup viol.discord_id).bind (fun r => r.banned_until))
        (now + banMinutesForViolationCount
          (((db.players.lookup viol.discord_id).bind (fun r => r.violations_count)).getD 0 + 1)
          * 60000)) := by
  have hban : ((upsertAllA db players now).lookup viol.discord_id).bind
      (fun r => r.banned_until) =
      (db.players.lookup viol.discord_id).bind (fun r => r.banned_until) :=
    upsertAllA_field db players now viol.discord_id _ (fun r nm t => rfl) (fun nm t => rfl)
  have hcnt : ((upsertAllA db players now).lookup viol.discord_id).bind
      (fun r => r.violations_count) =
      (db.players.lookup viol.discord_id).bind (fun r => r.violations_count) :=
    upsertAllA_field db players now viol.discord_id _ (fun r nm t => rfl) (fun nm t => rfl)
  constructor
  · rw [postA_to_violationBranch envToken token now body db players rounds viol ha hg hmode hp hr
      hlen hrlen hviol hgate]
    obtain ⟨row, hrow⟩ := Option.isSome_iff_exists.mp (upsertAllA_isSome db players now
      viol.discord_id hmem)
    rcases hmode with hm | hm
    · rw [hm, violationBranchA_ranked]
      rw [lookup_setPlayerRow, if_pos rfl, lookup_setPlayerRow, if_pos rfl]
      simp only [playerQ]
      rw [hcnt, hban, hrow]
      rfl
    · rw [hm, violationBranchA_casual _ _ _ _ _ _ _ _ _ _ (by decide)]
      rw [lookup_setPlayerRow, if_pos rfl]
      simp only [playerQ]
      rw [hcnt, hban, hrow]
      rfl
  · intro c hc
    rw [hc]
    simp only [finalBanA]
    split
    · exact le_refl c
    · exact le_of_not_lt (by assumption)


/-- Witness for `postA_violation_never_shortens_ban`: the concrete ranked
violation report against a database in which the violator already has a
far-future pending suspension. -/
theorem postA_violation_never_shortens_ban_witness :
    ("p2" ∈ ([playerA "p1", playerA "p2", playerA "p3", playerA "p4"].map
      (fun p => p.discord_id))) ∧
    (((POST_A (some "t") (some "t") 0 violationReportA dbQualifiedBan).1.players.lookup
        "p2").bind (fun r => r.banned_until) =
      some (finalBanA ((dbQualifiedBan.players.lookup "p2").bind (fun r => r.banned_until))
        (0 + banMinutesForViolationCount
          (((dbQualifiedBan.players.lookup "p2").bind (fun r => r.violations_count)).getD 0 + 1)
          * 60000)) ∧
     (∀ c, (dbQualifiedBan.players.lookup "p2").bind (fun r => r.banned_until) = some c →
       c ≤ finalBanA ((dbQualifiedBan.players.lookup "p2").bind (fun r => r.banned_until))
        (0 + banMinutesForViolationCount
          (((dbQualifiedBan.players.lookup "p2").bind (fun r => r.violations_count)).getD 0 + 1)
          * 60000))) :=
  ⟨by decide,
   postA_violation_never_shortens_ban (some "t") (some "t") 0 violationReportA dbQualifiedBan
     [playerA "p1", playerA "p2", playerA "p3", playerA "p4"]
     [roundA 1 "p1", roundA 2 "p2", roundA 3 "p3", roundA 4 "p4", roundA 5 "p1"]
     ⟨"afk", "p2", none⟩ rfl (by decide) (Or.inl rfl) rfl rfl rfl rfl rfl (by decide)
     (fun _ => rfl)⟩

theorem normalizeMode_cases (m : String) :
    normalizeMode m = "zwanglos" ∨ normalizeMode m = "ranked" := by
  rw [normalizeMode]
  by_cases h1 : m = "casual"
  · rw [if_pos h1]; exact Or.inl rfl
  · rw [if_neg h1]
    by_cases h2 : m = "zwanglos"
    · rw [if_pos h2]; exact Or.inl rfl
    · rw [if_neg h2]; exact Or.inr rfl

/-- C10 (amended to variant B, the unnamed route copy): a validated
variant B report with no rounds list (absent or empty) is accepted with
status 200; no `match_rounds` or `round_player_points` rows are written
(the round scorer is bypassed); and the supplied per-player totals
`total_points` flow unchanged into the sorted standings and the persisted
`match_results` — for casual matches with zero deltas, for ranked matches
with the `rankedFinalDeltas` Elo pipeline evaluated on exactly those
totals.  (Variant A instead rejects any report without exactly five
rounds — see the counterexample.) -/
theorem postB_totals_only_accepted (envToken token : Option String) (now : ℚ)
    (body : PayloadB) (db : Db) (players : List PlayerInB)
    (ha : authFailed envToken token = false) (hg : body.guild_id ≠ "") (hm : body.mode ≠ "")
    (hp : body.players = some players) (hlen : players.length = 4)
    (hr : body.rounds = none ∨ body.rounds = some []) (hv : body.violation = none)
    (hgate : normalizeMode body.mode = "ranked" → (players.map (fun p => p.discord_id)).find?
        (fun id => decide (playerQ (upsertAllB db players now) id (fun r => r.games_casual) 0 <
          CASUAL_REQUIRED_FOR_RANKED)) = none) :
    (POST_B envToken token now body db).2.status = 200 ∧
    (POST_B envToken token now body db).2.ok = true ∧
    (POST_B envToken token now body db).1.match_rounds = db.match_rounds ∧
    (POST_B envToken token now body db).1.round_player_points = db.round_player_points ∧
    (normalizeMode body.mode = "zwanglos" →
      (POST_B envToken token now body db).1.match_results = db.match_results ++
        (sortByPointsDesc (players.map (fun p => (p.discord_id, p.total_points.getD 0)))).enum.map
          (fun e => ResultRow.mk (db.matches'.length + 1) e.2.1 e.2.2 ((e.1 : ℚ) + 1) 0)) ∧
    (normalizeMode body.mode = "ranked" →
      (POST_B envToken token now body db).1.match_results = db.match_results ++
        (sortByPointsDesc (players.map (fun p => (p.discord_id, p.total_points.getD 0)))).enum.map
          (fun e => ResultRow.mk (db.matches'.length + 1) e.2.1 e.2.2 ((e.1 : ℚ) + 1)
            ((((rankedFinalDeltas (players.map (fun p => p.discord_id))
                (sortByPointsDesc (players.map (fun p => (p.discord_id, p.total_points.getD 0))))
                (fun id => ((players.map (fun p => (p.discord_id,
                  match p.elo_before with
                  | some e => e
                  | none => playerQ (upsertAllB db players now) p.discord_id
                      (fun r => r.elo_ranked) 1000))).lookup id).getD 0)
                (fun id => playerQ (upsertAllB db players now) id
                  (fun r => r.ranked_games_played) 0)).lookup e.2.1).getD 0 : ℤ) : ℚ))) := by
  have hr0 : body.rounds.getD [] = ([] : List RoundInB) := by
    rcases hr with h | h <;> rw [h] <;> rfl
  have hgate2 : (if normalizeMode body.mode = "ranked" then
      (players.map (fun p => p.discord_id)).find?
        (fun id => decide (playerQ (upsertAllB db players now) id (fun r => r.games_casual) 0 <
          CASUAL_REQUIRED_FOR_RANKED)) else none) = none := by
    by_cases h : normalizeMode body.mode = "ranked"
    · rw [if_pos h]; exact hgate h
    · rw [if_neg h]
  rw [POST_B, if_neg (by simp [ha]), if_neg (by simp [hg, hm, hp]), hp]
  simp only [Option.getD_some]
  rw [if_neg (by simp [hlen])]
  simp only [settleB]
  rw [hgate2, hr0, hv]
  rcases normalizeMode_cases body.mode with hz | hk
  · rw [hz]
    refine ⟨rfl, rfl, rfl, rfl, fun _ => rfl, fun hbad => absurd hbad (by decide)⟩
  · rw [hk]
    refine ⟨rfl, rfl, rfl, rfl, fun hbad => absurd hbad (by decide), fun _ => rfl⟩


/-- Witness for `postB_totals_only_accepted`: the concrete casual
totals-only report against the empty database. -/
theorem postB_totals_only_accepted_witness :
    (totalsOnlyReportB.rounds = none ∨ totalsOnlyReportB.rounds = some []) ∧
    ((POST_B (some "t") (some "t") 0 totalsOnlyReportB emptyDb).2.status = 200 ∧
     (POST_B (some "t") (some "t") 0 totalsOnlyReportB emptyDb).2.ok = true ∧
     (POST_B (some "t") (some "t") 0 totalsOnlyReportB emptyDb).1.match_rounds =
       emptyDb.match_rounds ∧
     (POST_B (some "t") (some "t") 0 totalsOnlyReportB emptyDb).1.round_player_points =
       emptyDb.round_player_points ∧
     (normalizeMode totalsOnlyReportB.mode = "zwanglos" →
       (POST_B (some "t") (some "t") 0 totalsOnlyReportB emptyDb).1.match_results =
         emptyDb.match_results ++
         (sortByPointsDesc ([playerB "p1" 5, playerB "p2" 3, playerB "p3" 3,
             playerB "p4" 2].map (fun p => (p.discord_id, p.total_points.getD 0)))).enum.map
           (fun e => ResultRow.mk (emptyDb.matches'.length + 1) e.2.1 e.2.2 ((e.1 : ℚ) + 1) 0)) ∧
     (normalizeMode totalsOnlyReportB.mode = "ranked" →
       (POST_B (some "t") (some "t") 0 totalsOnlyReportB emptyDb).1.match_results =
         emptyDb.match_results ++
         (sortByPointsDesc ([playerB "p1" 5, playerB "p2" 3, playerB "p3" 3,
             playerB "p4" 2].map (fun p => (p.discord_id, p.total_points.getD 0)))).enum.map
           (fun e => ResultRow.mk (emptyDb.matches'.length + 1) e.2.1 e.2.2 ((e.1 : ℚ) + 1)
             ((((rankedFinalDeltas ([playerB "p1" 5, playerB "p2" 3, playerB "p3" 3,
                  playerB "p4" 2].map (fun p => p.discord_id))
                 (sortByPointsDesc ([playerB "p1" 5, playerB "p2" 3, playerB "p3" 3,
                   playerB "p4" 2].map (fun p => (p.discord_id, p.total_points.getD 0))))
                 (fun id => (([playerB "p1" 5, playerB "p2" 3, playerB "p3" 3,
                   playerB "p4" 2].map (fun p => (p.discord_id,
                   match p.elo_before with
                   | some e => e
                   | none => playerQ (upsertAllB emptyDb [playerB "p1" 5, playerB "p2" 3,
                       playerB "p3" 3, playerB "p4" 2] 0) p.discord_id
                       (fun r => r.elo_ranked) 1000))).lookup id).getD 0)
                 (fun id => playerQ (upsertAllB emptyDb [playerB "p1" 5, playerB "p2" 3,
                     playerB "p3" 3, playerB "p4" 2] 0) id
                   (fun r => r.ranked_games_played) 0)).lookup e.2.1).getD 0 : ℤ) : ℚ)))) :=
  ⟨Or.inl rfl,
   postB_totals_only_accepted (some "t") (some "t") 0 totalsOnlyReportB emptyDb
     [playerB "p1" 5, playerB "p2" 3, playerB "p3" 3, playerB "p4" 2]
     rfl (by decide) (by decide) rfl rfl (Or.inl rfl) rfl
     (fun h => absurd h (by decide))⟩
